import Mathlib

/-!
# mdat2root: decoding of qmesydaq mdat files

A shallow embedding of `src/mdat2root.C` and theorems about it.

Conventions of the embedding.

* The input file is a list of bytes.  An `ifstream` is the list of bytes not yet
  consumed together with its failure flag: `read` of `n` bytes on a good stream
  with at least `n` bytes left hands out these bytes; with fewer bytes left it
  hands out what is left and sets the flag; on a failed stream it hands out
  nothing.
* The host is little-endian: the first byte read into a `uint16_t` is its low byte.
* Unsigned machine integers are natural numbers, reduced modulo `2^w` where the
  source assigns to a `w`-bit variable.  An `int` is its 32-bit two's-complement
  bit pattern.
* A variable passed by reference is an argument (old value) and a result (new value).
* The global `header` keeps its contents from one call of `mdat2root` to the next; its
  contents on entry are an argument of `mdat2root`.
* The locals `low`, `mid`, `high` of `ReadEntry` are not initialised in the source;
  their initial contents are the argument `u : Uninit`.  They matter only when a read
  comes up short.
* The counters `entry_num` and `buffer_num` are `uint64_t` in the source and count
  at most the bytes of the file, so they are natural numbers without reduction.
* Output to `cout` and the debug printing are left out.
* The tree `rawdata` is the list of the rows filled so far.
-/

set_option maxRecDepth 8000

namespace Mdat

/-! ## Masks (lines 17-33) -/

def mask_eventID : Nat := 0b100000000000000000000000000000000000000000000000
def mask_modID : Nat := 0b011100000000000000000000000000000000000000000000
def mask_slotID : Nat := 0b000001111000000000000000000000000000000000000000
def mask_amp : Nat := 0b000000000001111111100000000000000000000000000000
def mask_xpos : Nat := 0b000000000000000000011111111110000000000000000000
def mask_time : Nat := 0b000000000000000000000000000001111111111111111111

def mask_trigID : Nat := 0b011100000000000000000000000000000000000000000000
def mask_dataID : Nat := 0b000011110000000000000000000000000000000000000000
def mask_tData : Nat := 0b000000001111111111111111111110000000000000000000

/-! ## Data model (lines 38-69) -/

abbrev Byte := Fin 256

/-- Header parameters (`struct Header`). -/
structure Header where
  bufferlength : Nat
  buffertype : Nat
  headerlength : Nat
  buffernumber : Nat
  runID : Nat
  mcpdID : Byte
  status : Byte
  headerTS : Nat
  param0 : Nat
  param1 : Nat
  param2 : Nat
  param3 : Nat
deriving DecidableEq, Repr

/-- Individual event parameters (`struct Event`). -/
structure Event where
  xpos : Nat
  tubeID : Nat
  modID : Nat
  slotID : Nat
  amp : Nat
  time : Nat
  eventID : Nat
  eventTS : Nat
  trigID : Nat
  dataID : Nat
  tData : Nat
deriving DecidableEq, Repr

/-- The template `event0 = {}` used to reset `event`. -/
def event0 : Event :=
  { xpos := 0, tubeID := 0, modID := 0, slotID := 0, amp := 0, time := 0,
    eventID := 0, eventTS := 0, trigID := 0, dataID := 0, tData := 0 }

/-- The zero-initialised global `header`. -/
def header0 : Header :=
  { bufferlength := 0, buffertype := 0, headerlength := 0, buffernumber := 0, runID := 0,
    mcpdID := 0, status := 0, headerTS := 0, param0 := 0, param1 := 0, param2 := 0,
    param3 := 0 }

/-- Initial contents of the three uninitialised locals of `ReadEntry`. -/
structure Uninit where
  low : Nat
  mid : Nat
  high : Nat
deriving DecidableEq, Repr

/-! ## The input stream -/

/-- The `ifstream`: bytes not yet consumed, and the failure flag. -/
structure IfStream where
  bytes : List Byte
  fail : Bool
deriving DecidableEq, Repr

/-- Behaviour of `infile.read(buf, n)`: the bytes stored into `buf`, and the stream after. -/
def IfStream.read (s : IfStream) (n : Nat) : List Byte × IfStream :=
  if s.fail then ([], s)
  else if n ≤ s.bytes.length then (s.bytes.take n, { bytes := s.bytes.drop n, fail := false })
  else (s.bytes, { bytes := [], fail := true })

/-- The value of a `uint16_t` after the bytes `got` were stored at its address
(little-endian host); bytes not overwritten keep their old contents. -/
def store16 (word : Nat) : List Byte → Nat
  | [] => word
  | [b0] => (word / 256) * 256 + b0.val
  | b0 :: b1 :: _ => b0.val + 256 * b1.val

/-- The value of a `uint8_t` after the bytes `got` were stored at its address. -/
def store8 (byte : Byte) : List Byte → Byte
  | [] => byte
  | b0 :: _ => b0

/-! ## File reading functions (lines 76-162) -/

/-- Line 77: `word = (word)<<8 | (word)>>8`, assigned to a `uint16_t`. -/
def ByteSwap16 (word : Nat) : Nat :=
  ((word <<< 8) ||| (word >>> 8)) % 65536

/-- Lines 81-84. -/
def ReadWord (infile : IfStream) (word : Nat) : IfStream × Nat :=
  let r := infile.read 2
  (r.2, ByteSwap16 (store16 word r.1))

/-- Lines 87-89. -/
def ReadByte (infile : IfStream) (byte : Byte) : IfStream × Byte :=
  let r := infile.read 1
  (r.2, store8 byte r.1)

/-- Lines 93-99. -/
def ReadEntry (infile : IfStream) (u : Uninit) : IfStream × Nat :=
  let r1 := ReadWord infile u.low
  let r2 := ReadWord r1.1 u.mid
  let r3 := ReadWord r2.1 u.high
  (r3.1, (r1.2 ||| ((r2.2 <<< 16) % 2 ^ 64)) ||| ((r3.2 <<< 32) % 2 ^ 64))

/-- Lines 102-105: read (and dispose of) 58 bytes of file header. -/
def ReadHeader (infile : IfStream) : IfStream :=
  (infile.read 58).2

/-- Lines 108-128: the return value, the stream and the global `header` after the call. -/
def ReadBuffer (infile : IfStream) (u : Uninit) (header : Header) : Nat × IfStream × Header :=
  let r := ReadWord infile header.bufferlength
  let header := { header with bufferlength := r.2 }
  let r := ReadWord r.1 header.buffertype
  let header := { header with buffertype := r.2 }
  if header.buffertype ≠ 0x0001 then (1, r.1, header)
  else
    let r := ReadWord r.1 header.headerlength
    let header := { header with headerlength := r.2 }
    let r := ReadWord r.1 header.buffernumber
    let header := { header with buffernumber := r.2 }
    let r := ReadWord r.1 header.runID
    let header := { header with runID := r.2 }
    let b := ReadByte r.1 header.mcpdID
    let header := { header with mcpdID := b.2 }
    let b := ReadByte b.1 header.status
    let header := { header with status := b.2 }
    let r := ReadEntry b.1 u
    let header := { header with headerTS := r.2 }
    let r := ReadEntry r.1 u
    let header := { header with param0 := r.2 }
    let r := ReadEntry r.1 u
    let header := { header with param1 := r.2 }
    let r := ReadEntry r.1 u
    let header := { header with param2 := r.2 }
    let r := ReadEntry r.1 u
    let header := { header with param3 := r.2 }
    (0, r.1, header)

/-- Line 143, right-hand side: `(header.mcpdID - 1) << 6 | event.modID << 4 | event.slotID`
evaluated in `int` (32-bit two's complement; `4294967295` is the pattern of `-1`). -/
def tubeExpr (mcpdID : Byte) (modID slotID : Nat) : Nat :=
  ((((mcpdID.val + 4294967295) % 4294967296) <<< 6) % 4294967296 |||
    ((modID <<< 4) % 4294967296)) ||| slotID

/-- Lines 131-152: the stream and the global `event` after the call. -/
def ReadEvent (infile : IfStream) (u : Uninit) (header : Header) (event : Event) :
    IfStream × Event :=
  let r := ReadEntry infile u
  let rawevent := r.2
  let event := { event with eventID := ((rawevent &&& mask_eventID) >>> 47) % 256 }
  let event :=
    if event.eventID = 0 then
      let event := { event with amp := ((rawevent &&& mask_amp) >>> 29) % 65536 }
      let event := { event with
        tubeID := (((rawevent &&& mask_slotID) >>> 39) ||| ((rawevent &&& mask_modID) >>> 41))
          % 65536 }
      let event := { event with xpos := ((rawevent &&& mask_xpos) >>> 19) % 65536 }
      let event := { event with modID := ((rawevent &&& mask_modID) >>> 44) % 65536 }
      let event := { event with slotID := ((rawevent &&& mask_slotID) >>> 39) % 65536 }
      { event with tubeID := tubeExpr header.mcpdID event.modID event.slotID % 65536 }
    else if event.eventID = 1 then
      let event := { event with trigID := ((rawevent &&& mask_trigID) >>> 44) % 65536 }
      let event := { event with dataID := ((rawevent &&& mask_dataID) >>> 40) % 65536 }
      { event with tData := ((rawevent &&& mask_tData) >>> 19) % 4294967296 }
    else event
  let event := { event with eventTS := (rawevent &&& mask_time) % 4294967296 }
  let event := { event with time := (event.eventTS + header.headerTS) % 2 ^ 64 }
  (r.1, event)

/-- Lines 154-162 (the debug printing left out): four words are read and dropped.
The local `word` is not initialised in the source; it starts at 0 here, and its value
does not reach the result. -/
def ReadBufferEnd (infile : IfStream) : IfStream :=
  let r := ReadWord infile 0
  let r := ReadWord r.1 r.2
  let r := ReadWord r.1 r.2
  let r := ReadWord r.1 r.2
  r.1

/-! ## Main (lines 205-290) -/

/-- One row of the tree `rawdata`: the values of the nineteen branches (lines 221-239). -/
structure Record where
  xpos : Nat
  tubeID : Nat
  modID : Nat
  slotID : Nat
  amp : Nat
  time : Nat
  eventID : Nat
  trigID : Nat
  dataID : Nat
  tData : Nat
  eventTS : Nat
  mcpdID : Byte
  status : Byte
  param0 : Nat
  param1 : Nat
  param2 : Nat
  param3 : Nat
  headerTS : Nat
  buffernumber : Nat
deriving DecidableEq, Repr

/-- The row that `rawdata->Fill()` appends: a copy of the linked struct members. -/
def Fill (event : Event) (header : Header) : Record :=
  { xpos := event.xpos, tubeID := event.tubeID, modID := event.modID, slotID := event.slotID,
    amp := event.amp, time := event.time, eventID := event.eventID, trigID := event.trigID,
    dataID := event.dataID, tData := event.tData, eventTS := event.eventTS,
    mcpdID := header.mcpdID, status := header.status, param0 := header.param0,
    param1 := header.param1, param2 := header.param2, param3 := header.param3,
    headerTS := header.headerTS, buffernumber := header.buffernumber }

/-- The variables of `mdat2root` and the globals it works on. -/
structure State where
  infile : IfStream
  header : Header
  event : Event
  rawdata : List Record
  entry_num : Nat
  buffer_num : Nat
deriving DecidableEq, Repr

/-- Line 258: `(header.bufferlength - 21) / 3` in `int`, division truncating towards zero. -/
def bufferEntries (header : Header) : Int :=
  Int.tdiv ((header.bufferlength : Int) - 21) 3

/-- Lines 260-274: the `for` loop, by the number of iterations still to run. -/
def eventLoop (u : Uninit) : Nat → State → State
  | 0, st => st
  | n + 1, st =>
    let r := ReadEvent st.infile u st.header st.event
    let st := { st with infile := r.1, event := r.2 }
    let st := { st with entry_num := st.entry_num + 1 }
    let st := { st with rawdata := st.rawdata ++ [Fill st.event st.header] }
    let st := { st with event := event0 }
    eventLoop u n st

/-- Lines 253-277: one pass through the body of `while(true)`; the flag says
whether the pass left the loop through `break`. -/
def bufferBody (u : Uninit) (st : State) : Bool × State :=
  let r := ReadBuffer st.infile u st.header
  let st := { st with infile := r.2.1, header := r.2.2 }
  if r.1 = 1 then (true, st)
  else
    let st := { st with buffer_num := st.buffer_num + 1 }
    let buffer_entries := bufferEntries st.header
    let st := eventLoop u buffer_entries.toNat st
    (false, { st with infile := ReadBufferEnd st.infile })

/-- Lines 251-279: `while(true)`, with a bound on the number of passes;
`none` when the bound is used up before the loop is left. -/
def bufferLoop (u : Uninit) : Nat → State → Option State
  | 0, _ => none
  | fuel + 1, st =>
    match bufferBody u st with
    | (true, st1) => some st1
    | (false, st1) => bufferLoop u fuel st1

/-- Lines 207-209 and 244-247: the state on entry to the loop.  The global `header`
(line 51) is not reset by `mdat2root`: on entry it holds what the load (all zero,
`header0`) or an earlier call left, and is an argument here.  The global `event` is zero
at load and the event loop resets it after every row, so it is `event0` on every entry. -/
def initState (file : List Byte) (header : Header) : State :=
  { infile := ReadHeader { bytes := file, fail := false }, header := header, event := event0,
    rawdata := [], entry_num := 0, buffer_num := 0 }

/-- Lines 205-290: the state when the loop is left, from the contents of the file and
the contents of the global `header` on entry.  Every pass that stays in the loop, other
than possibly the first, consumes input, so `file.length + 2` passes always suffice. -/
def mdat2root (file : List Byte) (u : Uninit) (header : Header) : Option State :=
  bufferLoop u (file.length + 2) (initState file header)


/-! ## Layout of a well-formed file -/

/-- The 16-bit word lying at offset `i` of `bs`, first byte high. -/
def word16 (bs : List Byte) (i : Nat) : Nat :=
  (bs.getD i 0).val * 256 + (bs.getD (i + 1) 0).val

/-- The 48-bit value lying at offset `i` of `bs`: three words, low word first. -/
def entry48 (bs : List Byte) (i : Nat) : Nat :=
  word16 bs i + 2 ^ 16 * word16 bs (i + 2) + 2 ^ 32 * word16 bs (i + 4)

/-- The header lying in the first 42 bytes of `bs`. -/
def headerAt (bs : List Byte) : Header :=
  { bufferlength := word16 bs 0, buffertype := word16 bs 2, headerlength := word16 bs 4,
    buffernumber := word16 bs 6, runID := word16 bs 8, mcpdID := bs.getD 10 0,
    status := bs.getD 11 0, headerTS := entry48 bs 12, param0 := entry48 bs 18,
    param1 := entry48 bs 24, param2 := entry48 bs 30, param3 := entry48 bs 36 }

/-- A buffer as it lies in the file: header bytes, entries, trailer bytes. -/
structure RawBuffer where
  hdr : List Byte
  entries : List (List Byte)
  trailer : List Byte
deriving DecidableEq, Repr

/-- The first word of the header bytes. -/
def RawBuffer.bufferLength (b : RawBuffer) : Nat := word16 b.hdr 0

/-- The second word of the header bytes. -/
def RawBuffer.bufferType (b : RawBuffer) : Nat := word16 b.hdr 2

/-- A 21-word header with `bufferType = 0x0001` and `bufferLength ≥ 21`, followed by
`(bufferLength - 21) / 3` six-byte entries and a 4-word trailer. -/
def RawBuffer.WellFormed (b : RawBuffer) : Prop :=
  b.hdr.length = 42 ∧ b.bufferType = 0x0001 ∧ 21 ≤ b.bufferLength
    ∧ b.entries.length = (b.bufferLength - 21) / 3
    ∧ (∀ e ∈ b.entries, e.length = 6) ∧ b.trailer.length = 8

instance (b : RawBuffer) : Decidable b.WellFormed := by
  unfold RawBuffer.WellFormed
  infer_instance

/-- The bytes of the buffer in file order. -/
def RawBuffer.bytes (b : RawBuffer) : List Byte :=
  b.hdr ++ (b.entries.flatten ++ b.trailer)

/-- The header that `ReadBuffer` decodes from the header bytes of the buffer. -/
def RawBuffer.header (u : Uninit) (b : RawBuffer) : Header :=
  (ReadBuffer { bytes := b.hdr, fail := false } u header0).2.2

/-- The decode of one entry against a header: what `ReadEvent` makes of the six bytes,
starting from the reset `event`, as the row that `Fill` stores. -/
def decodeEntry (u : Uninit) (header : Header) (e : List Byte) : Record :=
  Fill (ReadEvent { bytes := e, fail := false } u header event0).2 header

/-- The decodes of the entries of the buffer against its own header, in file order. -/
def RawBuffer.records (u : Uninit) (b : RawBuffer) : List Record :=
  b.entries.map (decodeEntry u (b.header u))

/-- A file: prologue, buffers, and a closing header of four bytes or more. -/
def fileBytes (prologue : List Byte) (bufs : List RawBuffer) (closing : List Byte) : List Byte :=
  prologue ++ ((bufs.map RawBuffer.bytes).flatten ++ closing)

/-- The entries of the buffers in file order, each with the header of its own buffer. -/
def entriesInOrder (u : Uninit) (bufs : List RawBuffer) : List (Header × List Byte) :=
  bufs.flatMap fun b => b.entries.map fun e => (b.header u, e)

/-- Only the variant selected by `eventID` is populated: the fields of the other one are 0. -/
def Record.OneVariant (r : Record) : Prop :=
  (r.eventID = 0 ∨ r.eventID = 1)
    ∧ (r.eventID = 0 → r.trigID = 0 ∧ r.dataID = 0 ∧ r.tData = 0)
    ∧ (r.eventID = 1 →
        r.xpos = 0 ∧ r.tubeID = 0 ∧ r.modID = 0 ∧ r.slotID = 0 ∧ r.amp = 0)

/-! ## Measures of the input -/

/-- What is left to read: nothing once the stream has failed. -/
def avail (s : IfStream) : Nat := if s.fail then 0 else s.bytes.length

/-- If `s1` is still good then so was `s`, and exactly `n` bytes lie between them. -/
def Consumes (s s1 : IfStream) (n : Nat) : Prop :=
  s1.fail = false → s.fail = false ∧ s1.bytes.length + n = s.bytes.length

/-! ## Sample data -/

/-- A detector entry: `modID = 2`, `slotID = 5`, `amp = 37`, fine time 42. -/
def sampleEntry : List Byte := [0, 42, 160, 0, 34, 132]

/-- The same entry with bit 47 set: a trigger entry. -/
def sampleTrigger : List Byte := [0, 42, 160, 0, 162, 132]

/-- A detector entry in which only bit 37 is set. -/
def sampleBit37 : List Byte := [0, 0, 0, 0, 0, 32]

/-- Header bytes: `bufferLength = 24`, `bufferType = 1`, `mcpdID = 1`, `headerTS = 1000`. -/
def sampleHdr : List Byte :=
  [0, 24, 0, 1, 0, 21, 0, 7, 0, 9, 1, 0, 3, 232, 0, 0, 0, 0] ++ List.replicate 24 0

/-- One buffer holding the one detector entry `sampleEntry`. -/
def sampleBuffer : RawBuffer :=
  { hdr := sampleHdr, entries := [sampleEntry], trailer := List.replicate 8 0 }

/-- Header bytes of a buffer without entries: `bufferLength = 22`, `bufferType = 1`. -/
def sampleEmptyHdr : List Byte :=
  [0, 22, 0, 1, 0, 21, 0, 8, 0, 9, 1, 0, 3, 232, 0, 0, 0, 0] ++ List.replicate 24 0

/-- The loop variables in front of an entry-less buffer, its trailer and a closing header. -/
def sampleEmptyState : State :=
  { infile := { bytes := sampleEmptyHdr ++ (List.replicate 8 7 ++ [0, 0, 0, 2]), fail := false },
    header := header0, event := event0, rawdata := [], entry_num := 0, buffer_num := 0 }

/-- A stream at a buffer boundary: header with `param0..param3 = 1..4`, one detector
entry, and the trailer. -/
def sampleStream : List Byte :=
  [0, 24, 0, 1, 0, 21, 0, 7, 0, 9, 1, 0, 3, 232, 0, 0, 0, 0,
    0, 1, 0, 0, 0, 0, 0, 2, 0, 0, 0, 0, 0, 3, 0, 0, 0, 0, 0, 4, 0, 0, 0, 0]
    ++ (sampleEntry ++ List.replicate 8 0)

/-- Header bytes with `bufferLength = 5`, below the 21 that the entry count subtracts. -/
def sampleShortHdr : List Byte :=
  [0, 5, 0, 1, 0, 21, 0, 8, 0, 9, 1, 0, 3, 232, 0, 0, 0, 0] ++ List.replicate 24 0

/-- The loop variables in front of that header, a trailer and a closing header. -/
def sampleShortState : State :=
  { infile := { bytes := sampleShortHdr ++ (List.replicate 8 7 ++ [0, 0, 0, 2]), fail := false },
    header := header0, event := event0, rawdata := [], entry_num := 0, buffer_num := 0 }

/-- The loop variables in front of `sampleStream` and a closing header. -/
def sampleStreamState : State :=
  { infile := { bytes := sampleStream ++ [0, 0, 0, 2], fail := false },
    header := header0, event := event0, rawdata := [], entry_num := 0, buffer_num := 0 }

/-- A detector entry with `modID = 4`, `slotID = 0`. -/
def sampleMod4 : List Byte := [0, 0, 0, 0, 64, 0]

/-- A detector entry with `modID = 0`, `slotID = 0`. -/
def sampleMod0 : List Byte := [0, 0, 0, 0, 0, 0]

/-- The global `header` as a run leaves it when the file ends right after a buffer with
`bufferLength = 24`: the reads of the last `ReadBuffer` fail, and `ByteSwap16` turns
the 24 into 6144 and the `0x0001` into `0x0100`. -/
def sampleStaleHeader : Header :=
  { bufferlength := 6144, buffertype := 0x0100, headerlength := 21, buffernumber := 7,
    runID := 9, mcpdID := 1, status := 0, headerTS := 1000, param0 := 0, param1 := 0,
    param2 := 0, param3 := 0 }

/-! ## Bit fields -/

theorem field_extract (x s k : Nat) :
    (x &&& ((2 ^ k - 1) <<< s)) >>> s = (x / 2 ^ s) % 2 ^ k := by
  rw [← Nat.shiftRight_eq_div_pow]
  apply Nat.eq_of_testBit_eq
  intro i
  simp only [Nat.testBit_shiftRight, Nat.testBit_and, Nat.testBit_shiftLeft,
    Nat.testBit_two_pow_sub_one, Nat.testBit_mod_two_pow]
  by_cases h : i < k <;> simp [h]

theorem and_mask_eventID (x : Nat) : (x &&& mask_eventID) >>> 47 = x / 2 ^ 47 % 2 :=
  field_extract x 47 1

theorem and_mask_modID (x : Nat) : (x &&& mask_modID) >>> 44 = x / 2 ^ 44 % 8 :=
  field_extract x 44 3

theorem and_mask_slotID (x : Nat) : (x &&& mask_slotID) >>> 39 = x / 2 ^ 39 % 16 :=
  field_extract x 39 4

theorem and_mask_amp (x : Nat) : (x &&& mask_amp) >>> 29 = x / 2 ^ 29 % 256 :=
  field_extract x 29 8

theorem and_mask_xpos (x : Nat) : (x &&& mask_xpos) >>> 19 = x / 2 ^ 19 % 1024 :=
  field_extract x 19 10

theorem and_mask_trigID (x : Nat) : (x &&& mask_trigID) >>> 44 = x / 2 ^ 44 % 8 :=
  field_extract x 44 3

theorem and_mask_dataID (x : Nat) : (x &&& mask_dataID) >>> 40 = x / 2 ^ 40 % 16 :=
  field_extract x 40 4

theorem and_mask_tData (x : Nat) : (x &&& mask_tData) >>> 19 = x / 2 ^ 19 % 2097152 :=
  field_extract x 19 21

theorem and_mask_time (x : Nat) : x &&& mask_time = x % 2 ^ 19 :=
  Nat.and_pow_two_sub_one_eq_mod x 19

theorem testBit47_false {x : Nat} (h : x.testBit 47 = false) : x / 2 ^ 47 % 2 = 0 := by
  rw [Nat.testBit_to_div_mod] at h
  have := of_decide_eq_false h
  omega

theorem testBit47_true {x : Nat} (h : x.testBit 47 = true) : x / 2 ^ 47 % 2 = 1 := by
  rw [Nat.testBit_to_div_mod] at h
  exact of_decide_eq_true h

/-! ## Words and entries -/

theorem ByteSwap16_lt (w : Nat) : ByteSwap16 w < 65536 :=
  Nat.mod_lt _ (by decide)

theorem ReadWord_lt (s : IfStream) (w : Nat) : (ReadWord s w).2 < 65536 :=
  ByteSwap16_lt _

theorem ByteSwap16_store16_pair (w : Nat) (b0 b1 : Byte) (l : List Byte) :
    ByteSwap16 (store16 w (b0 :: b1 :: l)) = b0.val * 256 + b1.val := by
  have h0 := b0.isLt
  have h1 := b1.isLt
  unfold ByteSwap16 store16
  rw [Nat.shiftLeft_eq, Nat.shiftRight_eq_div_pow]
  have e : (b0.val + 256 * b1.val) / 2 ^ 8 = b1.val := by omega
  rw [e]
  have h8 : b1.val < 2 ^ 8 := by omega
  have := Nat.mul_add_lt_is_or h8 (b0.val + 256 * b1.val)
  rw [Nat.mul_comm, ← this]
  omega

theorem ReadWord_cons (b0 b1 : Byte) (rest : List Byte) (w : Nat) :
    ReadWord { bytes := b0 :: b1 :: rest, fail := false } w
      = ({ bytes := rest, fail := false }, b0.val * 256 + b1.val) := by
  simp [ReadWord, IfStream.read, ByteSwap16_store16_pair]

theorem ReadByte_cons (b0 : Byte) (rest : List Byte) (b : Byte) :
    ReadByte { bytes := b0 :: rest, fail := false } b = ({ bytes := rest, fail := false }, b0) := by
  simp [ReadByte, IfStream.read, store8]

/-- Composition of three 16-bit words, as computed on line 98. -/
theorem compose_words {l m h : Nat} (hl : l < 65536) (hm : m < 65536) (hh : h < 65536) :
    (l ||| ((m <<< 16) % 2 ^ 64)) ||| ((h <<< 32) % 2 ^ 64) = l + 2 ^ 16 * m + 2 ^ 32 * h := by
  rw [Nat.shiftLeft_eq, Nat.shiftLeft_eq, Nat.mod_eq_of_lt (by omega), Nat.mod_eq_of_lt (by omega)]
  have e1 : l ||| m * 2 ^ 16 = 2 ^ 16 * m + l := by
    rw [Nat.lor_comm, Nat.mul_comm]
    exact (Nat.mul_add_lt_is_or (by omega) m).symm
  rw [e1, Nat.lor_comm, Nat.mul_comm h]
  rw [← Nat.mul_add_lt_is_or (by omega) h]
  omega

theorem ReadEntry_lt (s : IfStream) (u : Uninit) : (ReadEntry s u).2 < 2 ^ 48 := by
  unfold ReadEntry
  simp only
  rw [compose_words (ReadWord_lt _ _) (ReadWord_lt _ _) (ReadWord_lt _ _)]
  have h1 := ReadWord_lt s u.low
  have h2 := ReadWord_lt (ReadWord s u.low).1 u.mid
  have h3 := ReadWord_lt (ReadWord (ReadWord s u.low).1 u.mid).1 u.high
  omega

theorem ReadEntry_cons (b0 b1 b2 b3 b4 b5 : Byte) (rest : List Byte) (u : Uninit) :
    ReadEntry { bytes := b0 :: b1 :: b2 :: b3 :: b4 :: b5 :: rest, fail := false } u
      = ({ bytes := rest, fail := false },
          (b0.val * 256 + b1.val) + 2 ^ 16 * (b2.val * 256 + b3.val)
            + 2 ^ 32 * (b4.val * 256 + b5.val)) := by
  have h0 := b0.isLt
  have h1 := b1.isLt
  have h2 := b2.isLt
  have h3 := b3.isLt
  have h4 := b4.isLt
  have h5 := b5.isLt
  unfold ReadEntry
  simp only [ReadWord_cons]
  rw [compose_words (by omega) (by omega) (by omega)]

/-! ## Decoding of one event -/

theorem ReadEvent_stream (infile : IfStream) (u : Uninit) (header : Header) (event : Event) :
    (ReadEvent infile u header event).1 = (ReadEntry infile u).1 := rfl

theorem ReadEvent_detector (infile : IfStream) (u : Uninit) (header : Header) (event : Event)
    (h47 : (ReadEntry infile u).2.testBit 47 = false) :
    (ReadEvent infile u header event).2 =
      { event with
        eventID := 0
        amp := (ReadEntry infile u).2 / 2 ^ 29 % 256
        xpos := (ReadEntry infile u).2 / 2 ^ 19 % 1024
        modID := (ReadEntry infile u).2 / 2 ^ 44 % 8
        slotID := (ReadEntry infile u).2 / 2 ^ 39 % 16
        tubeID := tubeExpr header.mcpdID ((ReadEntry infile u).2 / 2 ^ 44 % 8)
          ((ReadEntry infile u).2 / 2 ^ 39 % 16) % 65536
        eventTS := (ReadEntry infile u).2 % 2 ^ 19
        time := ((ReadEntry infile u).2 % 2 ^ 19 + header.headerTS) % 2 ^ 64 } := by
  have hid : ((ReadEntry infile u).2 &&& mask_eventID) >>> 47 % 256 = 0 := by
    rw [and_mask_eventID, testBit47_false h47]
  unfold ReadEvent
  simp only [hid, if_true, and_mask_amp, and_mask_xpos, and_mask_modID, and_mask_slotID,
    and_mask_time]
  have e1 : (ReadEntry infile u).2 / 2 ^ 29 % 256 % 65536 = (ReadEntry infile u).2 / 2 ^ 29 % 256 := by
    omega
  have e2 : (ReadEntry infile u).2 / 2 ^ 19 % 1024 % 65536 = (ReadEntry infile u).2 / 2 ^ 19 % 1024 := by
    omega
  have e3 : (ReadEntry infile u).2 / 2 ^ 44 % 8 % 65536 = (ReadEntry infile u).2 / 2 ^ 44 % 8 := by
    omega
  have e4 : (ReadEntry infile u).2 / 2 ^ 39 % 16 % 65536 = (ReadEntry infile u).2 / 2 ^ 39 % 16 := by
    omega
  have e5 : (ReadEntry infile u).2 % 2 ^ 19 % 4294967296 = (ReadEntry infile u).2 % 2 ^ 19 := by
    omega
  simp only [e1, e2, e3, e4, e5]

theorem ReadEvent_trigger (infile : IfStream) (u : Uninit) (header : Header) (event : Event)
    (h47 : (ReadEntry infile u).2.testBit 47 = true) :
    (ReadEvent infile u header event).2 =
      { event with
        eventID := 1
        trigID := (ReadEntry infile u).2 / 2 ^ 44 % 8
        dataID := (ReadEntry infile u).2 / 2 ^ 40 % 16
        tData := (ReadEntry infile u).2 / 2 ^ 19 % 2097152
        eventTS := (ReadEntry infile u).2 % 2 ^ 19
        time := ((ReadEntry infile u).2 % 2 ^ 19 + header.headerTS) % 2 ^ 64 } := by
  have hid : ((ReadEntry infile u).2 &&& mask_eventID) >>> 47 % 256 = 1 := by
    rw [and_mask_eventID, testBit47_true h47]
  unfold ReadEvent
  simp only [hid, one_ne_zero, if_false, if_true, and_mask_trigID, and_mask_dataID,
    and_mask_tData, and_mask_time]
  have e1 : (ReadEntry infile u).2 / 2 ^ 44 % 8 % 65536 = (ReadEntry infile u).2 / 2 ^ 44 % 8 := by
    omega
  have e2 : (ReadEntry infile u).2 / 2 ^ 40 % 16 % 65536 = (ReadEntry infile u).2 / 2 ^ 40 % 16 := by
    omega
  have e3 : (ReadEntry infile u).2 / 2 ^ 19 % 2097152 % 4294967296
      = (ReadEntry infile u).2 / 2 ^ 19 % 2097152 := by
    omega
  have e5 : (ReadEntry infile u).2 % 2 ^ 19 % 4294967296 = (ReadEntry infile u).2 % 2 ^ 19 := by
    omega
  simp only [e1, e2, e3, e5]

theorem tubeExpr_of_pos (mcpdID : Byte) (modID slotID : Nat) (hm : 1 ≤ mcpdID.val)
    (hmod : modID ≤ 7) (hslot : slotID ≤ 15) :
    tubeExpr mcpdID modID slotID = (((mcpdID.val - 1) <<< 6) ||| (modID <<< 4)) ||| slotID
      ∧ tubeExpr mcpdID modID slotID < 65536 := by
  have hb := mcpdID.isLt
  have e1 : (mcpdID.val + 4294967295) % 4294967296 = mcpdID.val - 1 := by omega
  have e2 : ((mcpdID.val - 1) <<< 6) % 4294967296 = (mcpdID.val - 1) <<< 6 := by
    rw [Nat.shiftLeft_eq]; omega
  have e3 : (modID <<< 4) % 4294967296 = modID <<< 4 := by
    rw [Nat.shiftLeft_eq]; omega
  have e : tubeExpr mcpdID modID slotID
      = (((mcpdID.val - 1) <<< 6) ||| (modID <<< 4)) ||| slotID := by
    unfold tubeExpr
    rw [e1, e2, e3]
  refine ⟨e, ?_⟩
  rw [e]
  have b1 : (mcpdID.val - 1) <<< 6 < 2 ^ 16 := by rw [Nat.shiftLeft_eq]; omega
  have b2 : modID <<< 4 < 2 ^ 16 := by rw [Nat.shiftLeft_eq]; omega
  have b3 : slotID < 2 ^ 16 := by omega
  exact Nat.or_lt_two_pow (Nat.or_lt_two_pow b1 b2) b3

/-! ## Reading from a good stream -/

theorem drop_cons_getD (bs : List Byte) (k : Nat) (h : k + 1 ≤ bs.length) :
    bs.drop k = bs.getD k 0 :: bs.drop (k + 1) := by
  have hk : k < bs.length := by omega
  rw [List.getD_eq_getElem bs 0 hk]
  exact List.drop_eq_getElem_cons hk

theorem ReadWord_drop (bs : List Byte) (k w : Nat) (h : k + 2 ≤ bs.length) :
    ReadWord { bytes := bs.drop k, fail := false } w
      = ({ bytes := bs.drop (k + 2), fail := false }, word16 bs k) := by
  rw [drop_cons_getD bs k (by omega), drop_cons_getD bs (k + 1) (by omega), ReadWord_cons]
  rfl

theorem ReadByte_drop (bs : List Byte) (k : Nat) (b : Byte) (h : k + 1 ≤ bs.length) :
    ReadByte { bytes := bs.drop k, fail := false } b
      = ({ bytes := bs.drop (k + 1), fail := false }, bs.getD k 0) := by
  rw [drop_cons_getD bs k h, ReadByte_cons]

theorem ReadEntry_drop (bs : List Byte) (k : Nat) (u : Uninit) (h : k + 6 ≤ bs.length) :
    ReadEntry { bytes := bs.drop k, fail := false } u
      = ({ bytes := bs.drop (k + 6), fail := false }, entry48 bs k) := by
  rw [drop_cons_getD bs k (by omega), drop_cons_getD bs (k + 1) (by omega),
    drop_cons_getD bs (k + 2) (by omega), drop_cons_getD bs (k + 3) (by omega),
    drop_cons_getD bs (k + 4) (by omega), drop_cons_getD bs (k + 5) (by omega), ReadEntry_cons]
  rfl

theorem word16_append (a rest : List Byte) (k : Nat) (h : k + 2 ≤ a.length) :
    word16 (a ++ rest) k = word16 a k := by
  unfold word16
  rw [List.getD_append a rest 0 k (by omega), List.getD_append a rest 0 (k + 1) (by omega)]

theorem entry48_append (a rest : List Byte) (k : Nat) (h : k + 6 ≤ a.length) :
    entry48 (a ++ rest) k = entry48 a k := by
  unfold entry48
  rw [word16_append a rest k (by omega), word16_append a rest (k + 2) (by omega),
    word16_append a rest (k + 4) (by omega)]

theorem headerAt_append (a rest : List Byte) (h : 42 ≤ a.length) :
    headerAt (a ++ rest) = headerAt a := by
  unfold headerAt
  rw [word16_append a rest 0 (by omega), word16_append a rest 2 (by omega),
    word16_append a rest 4 (by omega), word16_append a rest 6 (by omega),
    word16_append a rest 8 (by omega), List.getD_append a rest 0 10 (by omega),
    List.getD_append a rest 0 11 (by omega), entry48_append a rest 12 (by omega),
    entry48_append a rest 18 (by omega), entry48_append a rest 24 (by omega),
    entry48_append a rest 30 (by omega), entry48_append a rest 36 (by omega)]

theorem ReadBuffer_accept (bs : List Byte) (u : Uninit) (header : Header)
    (hlen : 42 ≤ bs.length) (htype : word16 bs 2 = 0x0001) :
    ReadBuffer { bytes := bs, fail := false } u header
      = (0, { bytes := bs.drop 42, fail := false }, headerAt bs) := by
  have h0 : ({ bytes := bs, fail := false } : IfStream)
      = { bytes := bs.drop 0, fail := false } := by simp
  unfold ReadBuffer
  rw [h0]
  simp only [ReadWord_drop bs 0 _ (by omega), ReadWord_drop bs 2 _ (by omega), htype,
    ReadWord_drop bs 4 _ (by omega), ReadWord_drop bs 6 _ (by omega),
    ReadWord_drop bs 8 _ (by omega), ReadByte_drop bs 10 _ (by omega),
    ReadByte_drop bs 11 _ (by omega), ReadEntry_drop bs 12 _ (by omega),
    ReadEntry_drop bs 18 _ (by omega), ReadEntry_drop bs 24 _ (by omega),
    ReadEntry_drop bs 30 _ (by omega), ReadEntry_drop bs 36 _ (by omega)]
  simp [headerAt, htype]

theorem ReadBuffer_reject (b0 b1 b2 b3 : Byte) (rest : List Byte) (u : Uninit)
    (header : Header) (htype : b2.val * 256 + b3.val ≠ 0x0001) :
    ReadBuffer { bytes := b0 :: b1 :: b2 :: b3 :: rest, fail := false } u header
      = (1, { bytes := rest, fail := false },
          { header with bufferlength := b0.val * 256 + b1.val,
                        buffertype := b2.val * 256 + b3.val }) := by
  unfold ReadBuffer
  simp only [ReadWord_cons]
  rw [if_pos htype]

theorem ReadEntry_append (e rest : List Byte) (u : Uninit) (h : e.length = 6) :
    ReadEntry { bytes := e ++ rest, fail := false } u
      = ({ bytes := rest, fail := false }, entry48 e 0) := by
  have h0 : ({ bytes := e ++ rest, fail := false } : IfStream)
      = { bytes := (e ++ rest).drop 0, fail := false } := by simp
  rw [h0, ReadEntry_drop (e ++ rest) 0 u (by simp; omega), entry48_append e rest 0 (by omega)]
  have hd : (e ++ rest).drop (0 + 6) = rest := List.drop_left' h
  rw [hd]

theorem ReadEntry_exact (e : List Byte) (u : Uninit) (h : e.length = 6) :
    (ReadEntry { bytes := e, fail := false } u).2 = entry48 e 0 := by
  have := ReadEntry_append e [] u h
  rw [List.append_nil] at this
  rw [this]

/-- The event that `ReadEvent` leaves depends on the stream only through
the value that `ReadEntry` delivers. -/
theorem ReadEvent_congr (s1 s2 : IfStream) (u1 u2 : Uninit) (header : Header) (event : Event)
    (h : (ReadEntry s1 u1).2 = (ReadEntry s2 u2).2) :
    (ReadEvent s1 u1 header event).2 = (ReadEvent s2 u2 header event).2 := by
  unfold ReadEvent
  simp only [h]

theorem ReadEvent_append (e rest : List Byte) (u : Uninit) (header : Header) (event : Event)
    (h : e.length = 6) :
    ReadEvent { bytes := e ++ rest, fail := false } u header event
      = ({ bytes := rest, fail := false },
          (ReadEvent { bytes := e, fail := false } u header event).2) := by
  have h1 : (ReadEvent { bytes := e ++ rest, fail := false } u header event).1
      = { bytes := rest, fail := false } := by
    rw [ReadEvent_stream, ReadEntry_append e rest u h]
  have h2 := ReadEvent_congr { bytes := e ++ rest, fail := false } { bytes := e, fail := false }
    u u header event (by rw [ReadEntry_append e rest u h, ReadEntry_exact e u h])
  exact Prod.ext h1 h2

theorem ReadBufferEnd_append (t rest : List Byte) (h : t.length = 8) :
    ReadBufferEnd { bytes := t ++ rest, fail := false } = { bytes := rest, fail := false } := by
  have h0 : ({ bytes := t ++ rest, fail := false } : IfStream)
      = { bytes := (t ++ rest).drop 0, fail := false } := by simp
  have hl : 8 ≤ (t ++ rest).length := by simp; omega
  unfold ReadBufferEnd
  rw [h0]
  simp only [ReadWord_drop (t ++ rest) 0 _ (by omega), ReadWord_drop (t ++ rest) 2 _ (by omega),
    ReadWord_drop (t ++ rest) 4 _ (by omega), ReadWord_drop (t ++ rest) 6 _ (by omega)]
  have hd : (t ++ rest).drop (6 + 2) = rest := List.drop_left' h
  rw [hd]

theorem bufferEntries_toNat (header : Header) (h : 21 ≤ header.bufferlength) :
    (bufferEntries header).toNat = (header.bufferlength - 21) / 3 := by
  unfold bufferEntries
  rw [Int.tdiv_eq_ediv (by omega) (by omega)]
  omega

/-! ## The event loop -/

theorem eventLoop_length (u : Uninit) (n : Nat) (st : State) :
    (eventLoop u n st).rawdata.length = st.rawdata.length + n
      ∧ (eventLoop u n st).entry_num = st.entry_num + n
      ∧ (eventLoop u n st).header = st.header
      ∧ (eventLoop u n st).buffer_num = st.buffer_num := by
  induction n generalizing st with
  | zero => exact ⟨rfl, rfl, rfl, rfl⟩
  | succ n ih =>
    unfold eventLoop
    simp only
    obtain ⟨h1, h2, h3, h4⟩ := ih
      { infile := (ReadEvent st.infile u st.header st.event).1, header := st.header,
        event := event0,
        rawdata := st.rawdata ++ [Fill (ReadEvent st.infile u st.header st.event).2 st.header],
        entry_num := st.entry_num + 1, buffer_num := st.buffer_num }
    refine ⟨?_, ?_, h3, h4⟩
    · rw [h1]
      simp only [List.length_append, List.length_singleton]
      omega
    · rw [h2]
      simp only
      omega

theorem eventLoop_entries (u : Uninit) (entries : List (List Byte)) (rest : List Byte)
    (st : State) (hlen : ∀ e ∈ entries, e.length = 6)
    (hin : st.infile = { bytes := entries.flatten ++ rest, fail := false })
    (hev : st.event = event0) :
    eventLoop u entries.length st =
      { st with
        infile := { bytes := rest, fail := false }
        rawdata := st.rawdata ++ entries.map (decodeEntry u st.header)
        entry_num := st.entry_num + entries.length } := by
  induction entries generalizing st with
  | nil =>
    cases st
    simp only [List.flatten_nil, List.nil_append] at hin
    simp [eventLoop, hin]
  | cons e es ih =>
    have he : e.length = 6 := hlen e (List.mem_cons_self _ _)
    have hes : ∀ x ∈ es, x.length = 6 := fun x hx => hlen x (List.mem_cons_of_mem _ hx)
    obtain ⟨infile, header, event, rawdata, entry_num, buffer_num⟩ := st
    simp only at hin hev
    subst hin hev
    rw [List.length_cons, eventLoop]
    simp only [List.flatten_cons, List.append_assoc, ReadEvent_append e _ u header event0 he]
    rw [ih _ hes rfl rfl]
    simp [decodeEntry, Nat.add_assoc, Nat.add_comm 1]

/-! ## The buffer loop on a well-formed file -/

theorem ReadBuffer_append (hdr rest : List Byte) (u : Uninit) (header : Header)
    (hlen : hdr.length = 42) (htype : word16 hdr 2 = 0x0001) :
    ReadBuffer { bytes := hdr ++ rest, fail := false } u header
      = (0, { bytes := rest, fail := false }, headerAt hdr) := by
  rw [ReadBuffer_accept (hdr ++ rest) u header (by simp; omega)
    (by rw [word16_append hdr rest 2 (by omega)]; exact htype),
    headerAt_append hdr rest (by omega), List.drop_left' hlen]

theorem RawBuffer.header_eq (u : Uninit) (b : RawBuffer) (hwf : b.WellFormed) :
    b.header u = headerAt b.hdr := by
  have h := ReadBuffer_append b.hdr [] u header0 hwf.1 hwf.2.1
  rw [List.append_nil] at h
  unfold RawBuffer.header
  rw [h]

theorem bufferBody_wellformed (u : Uninit) (b : RawBuffer) (rest : List Byte) (st : State)
    (hwf : b.WellFormed)
    (hin : st.infile = { bytes := b.bytes ++ rest, fail := false })
    (hev : st.event = event0) :
    bufferBody u st =
      (false,
        { st with
          infile := { bytes := rest, fail := false }
          header := b.header u
          rawdata := st.rawdata ++ b.records u
          entry_num := st.entry_num + (b.bufferLength - 21) / 3
          buffer_num := st.buffer_num + 1 }) := by
  have hh := RawBuffer.header_eq u b hwf
  obtain ⟨hl, ht, hL, hn, he, htl⟩ := hwf
  obtain ⟨infile, header, event, rawdata, entry_num, buffer_num⟩ := st
  simp only at hin hev
  subst hin hev
  have hcount : (bufferEntries (headerAt b.hdr)).toNat = b.entries.length := by
    rw [bufferEntries_toNat (headerAt b.hdr) hL, hn]
    rfl
  unfold bufferBody
  simp only [RawBuffer.bytes, List.append_assoc,
    ReadBuffer_append b.hdr _ u header hl ht, hcount]
  rw [if_neg (by decide)]
  rw [eventLoop_entries u b.entries (b.trailer ++ rest) _ he rfl rfl]
  simp only [ReadBufferEnd_append b.trailer rest htl, hh, RawBuffer.records, hn]

theorem flatten_bytes_length (bufs : List RawBuffer) (hwf : ∀ b ∈ bufs, b.WellFormed) :
    bufs.length ≤ (bufs.map RawBuffer.bytes).flatten.length := by
  induction bufs with
  | nil => simp
  | cons b bs ih =>
    have h1 := (hwf b (List.mem_cons_self _ _)).1
    have h2 := ih (fun x hx => hwf x (List.mem_cons_of_mem _ hx))
    simp only [List.map_cons, List.flatten_cons, List.length_append, List.length_cons,
      RawBuffer.bytes]
    omega

theorem bufferLoop_wellformed (u : Uninit) (bufs : List RawBuffer) (t0 t1 t2 t3 : Byte)
    (tail : List Byte) (hwf : ∀ b ∈ bufs, b.WellFormed)
    (ht : t2.val * 256 + t3.val ≠ 0x0001) (fuel : Nat) (st : State)
    (hfuel : bufs.length < fuel)
    (hin : st.infile
      = { bytes := (bufs.map RawBuffer.bytes).flatten ++ t0 :: t1 :: t2 :: t3 :: tail,
          fail := false })
    (hev : st.event = event0) :
    ∃ header : Header, bufferLoop u fuel st = some
      { infile := { bytes := tail, fail := false }
        header := header
        event := event0
        rawdata := st.rawdata ++ (bufs.map (RawBuffer.records u)).flatten
        entry_num := st.entry_num + (bufs.map fun b => (b.bufferLength - 21) / 3).sum
        buffer_num := st.buffer_num + bufs.length } := by
  induction bufs generalizing fuel st with
  | nil =>
    obtain ⟨fuel, rfl⟩ : ∃ k, fuel = k + 1 := ⟨fuel - 1, by simp at hfuel; omega⟩
    obtain ⟨infile, header, event, rawdata, entry_num, buffer_num⟩ := st
    simp only [List.map_nil, List.flatten_nil, List.nil_append] at hin hev
    subst hin hev
    refine ⟨{ header with bufferlength := t0.val * 256 + t1.val,
                          buffertype := t2.val * 256 + t3.val }, ?_⟩
    rw [bufferLoop]
    simp only [bufferBody, ReadBuffer_reject t0 t1 t2 t3 tail u header ht, if_true]
    simp
  | cons b bs ih =>
    obtain ⟨fuel, rfl⟩ : ∃ k, fuel = k + 1 := ⟨fuel - 1, by simp at hfuel; omega⟩
    have hb := hwf b (List.mem_cons_self _ _)
    have hbs : ∀ x ∈ bs, x.WellFormed := fun x hx => hwf x (List.mem_cons_of_mem _ hx)
    have hin2 : st.infile
        = { bytes := b.bytes ++ ((bs.map RawBuffer.bytes).flatten ++ t0 :: t1 :: t2 :: t3 :: tail),
            fail := false } := by
      rw [hin]
      simp
    rw [bufferLoop, bufferBody_wellformed u b _ st hb hin2 hev]
    simp only
    obtain ⟨h, hh⟩ := ih hbs fuel
      { st with
        infile := { bytes := (bs.map RawBuffer.bytes).flatten ++ t0 :: t1 :: t2 :: t3 :: tail,
                    fail := false }
        header := b.header u
        rawdata := st.rawdata ++ b.records u
        entry_num := st.entry_num + (b.bufferLength - 21) / 3
        buffer_num := st.buffer_num + 1 }
      (by simp at hfuel; omega) rfl hev
    refine ⟨h, ?_⟩
    rw [hh]
    simp [Nat.add_assoc, Nat.add_comm 1]

/-! ## The whole run on a well-formed file -/

theorem initState_prologue (prologue rest : List Byte) (header : Header)
    (hp : prologue.length = 58) :
    initState (prologue ++ rest) header =
      { infile := { bytes := rest, fail := false }, header := header, event := event0,
        rawdata := [], entry_num := 0, buffer_num := 0 } := by
  unfold initState ReadHeader IfStream.read
  have hle : 58 ≤ (prologue ++ rest).length := by simp; omega
  simp only [Bool.false_eq_true, if_false, if_pos hle, List.drop_left' hp]

theorem mdat2root_run (prologue : List Byte) (bufs : List RawBuffer) (t0 t1 t2 t3 : Byte)
    (tail : List Byte) (u : Uninit) (header : Header) (hp : prologue.length = 58)
    (hwf : ∀ b ∈ bufs, b.WellFormed) (ht : t2.val * 256 + t3.val ≠ 0x0001) :
    ∃ last : Header,
      mdat2root (fileBytes prologue bufs (t0 :: t1 :: t2 :: t3 :: tail)) u header = some
        { infile := { bytes := tail, fail := false }
          header := last
          event := event0
          rawdata := (bufs.map (RawBuffer.records u)).flatten
          entry_num := (bufs.map fun b => (b.bufferLength - 21) / 3).sum
          buffer_num := bufs.length } := by
  have hl := flatten_bytes_length bufs hwf
  have hfuel : bufs.length
      < (fileBytes prologue bufs (t0 :: t1 :: t2 :: t3 :: tail)).length + 2 := by
    simp only [fileBytes, List.length_append, List.length_cons]
    omega
  unfold mdat2root
  obtain ⟨h, hh⟩ := bufferLoop_wellformed u bufs t0 t1 t2 t3 tail hwf ht _
    (initState (fileBytes prologue bufs (t0 :: t1 :: t2 :: t3 :: tail)) header) hfuel
    (by rw [fileBytes, initState_prologue prologue _ header hp])
    (by rw [fileBytes, initState_prologue prologue _ header hp])
  refine ⟨h, ?_⟩
  rw [hh, fileBytes, initState_prologue prologue _ header hp]
  simp

theorem records_length (u : Uninit) (bufs : List RawBuffer) :
    (bufs.map (RawBuffer.records u)).flatten.length = (bufs.map fun b => b.entries.length).sum := by
  rw [List.length_flatten, List.map_map]
  congr 1
  apply List.map_congr_left
  intro b _
  simp [RawBuffer.records]

theorem records_eq_map (u : Uninit) (bufs : List RawBuffer) :
    (bufs.map (RawBuffer.records u)).flatten
      = (entriesInOrder u bufs).map fun p => decodeEntry u p.1 p.2 := by
  unfold entriesInOrder
  rw [List.flatMap_def, List.map_flatten, List.map_map]
  congr 1
  apply List.map_congr_left
  intro b _
  simp [RawBuffer.records, Function.comp_def]

theorem Fill_ReadEvent_variant (s : IfStream) (u : Uninit) (header : Header) :
    (Fill (ReadEvent s u header event0).2 header).eventID = (ReadEntry s u).2 / 2 ^ 47 % 2
      ∧ (Fill (ReadEvent s u header event0).2 header).OneVariant := by
  unfold Record.OneVariant
  cases h47 : (ReadEntry s u).2.testBit 47
  · rw [ReadEvent_detector _ u header event0 h47, testBit47_false h47]
    simp [Fill, event0]
  · rw [ReadEvent_trigger _ u header event0 h47, testBit47_true h47]
    simp [Fill, event0]

/-! ## Invariant of the loops on any input -/

theorem eventLoop_variant (u : Uninit) (n : Nat) (st : State) (hev : st.event = event0)
    (hall : ∀ r ∈ st.rawdata, r.OneVariant) :
    (eventLoop u n st).event = event0 ∧ ∀ r ∈ (eventLoop u n st).rawdata, r.OneVariant := by
  induction n generalizing st with
  | zero => exact ⟨hev, hall⟩
  | succ n ih =>
    rw [eventLoop]
    apply ih
    · rfl
    · intro r hr
      simp only [List.mem_append, List.mem_singleton] at hr
      rcases hr with hr | hr
      · exact hall r hr
      · rw [hr, hev]
        exact (Fill_ReadEvent_variant _ u _).2

theorem bufferBody_variant (u : Uninit) (st : State) (hev : st.event = event0)
    (hall : ∀ r ∈ st.rawdata, r.OneVariant) :
    (bufferBody u st).2.event = event0 ∧ ∀ r ∈ (bufferBody u st).2.rawdata, r.OneVariant := by
  unfold bufferBody
  simp only
  split
  · exact ⟨hev, hall⟩
  · exact eventLoop_variant u _ _ hev hall

theorem bufferLoop_variant (u : Uninit) (fuel : Nat) (st st1 : State)
    (hev : st.event = event0) (hall : ∀ r ∈ st.rawdata, r.OneVariant)
    (hrun : bufferLoop u fuel st = some st1) :
    st1.event = event0 ∧ ∀ r ∈ st1.rawdata, r.OneVariant := by
  induction fuel generalizing st with
  | zero => simp [bufferLoop] at hrun
  | succ fuel ih =>
    have hb := bufferBody_variant u st hev hall
    rw [bufferLoop] at hrun
    rcases hbody : bufferBody u st with ⟨flag, st2⟩
    rw [hbody] at hrun hb
    cases flag
    · exact ih st2 hb.1 hb.2 hrun
    · simp only [Option.some.injEq] at hrun
      rw [← hrun]
      exact hb

theorem mdat2root_variant (file : List Byte) (u : Uninit) (header : Header) (st : State)
    (hrun : mdat2root file u header = some st) :
    st.event = event0 ∧ ∀ r ∈ st.rawdata, r.OneVariant :=
  bufferLoop_variant u _ (initState file header) st rfl
    (fun _ hr => absurd hr (List.not_mem_nil _)) hrun

theorem bufferBody_of_accept (u : Uninit) (st : State)
    (hacc : (ReadBuffer st.infile u st.header).1 = 0) :
    bufferBody u st =
      (false,
        { eventLoop u (bufferEntries (ReadBuffer st.infile u st.header).2.2).toNat
            { st with
              infile := (ReadBuffer st.infile u st.header).2.1
              header := (ReadBuffer st.infile u st.header).2.2
              buffer_num := st.buffer_num + 1 } with
          infile := ReadBufferEnd
            (eventLoop u (bufferEntries (ReadBuffer st.infile u st.header).2.2).toNat
              { st with
                infile := (ReadBuffer st.infile u st.header).2.1
                header := (ReadBuffer st.infile u st.header).2.2
                buffer_num := st.buffer_num + 1 }).infile }) := by
  unfold bufferBody
  simp only [hacc]
  rw [if_neg (by decide)]

/-! ## Consumption of input -/

theorem Consumes.trans {s s1 s2 : IfStream} {n m : Nat} (h1 : Consumes s s1 n)
    (h2 : Consumes s1 s2 m) : Consumes s s2 (n + m) := by
  intro h
  obtain ⟨a, b⟩ := h2 h
  obtain ⟨c, d⟩ := h1 a
  exact ⟨c, by omega⟩

theorem Consumes.refl (s : IfStream) : Consumes s s 0 := fun h => ⟨h, rfl⟩

theorem read_consumes (s : IfStream) (n : Nat) : Consumes s (s.read n).2 n := by
  unfold Consumes IfStream.read
  cases hf : s.fail
  · by_cases hn : n ≤ s.bytes.length
    · simp [hn]
    · simp [hn]
  · simp [hf]

theorem read_failed (s : IfStream) (n : Nat) (h : s.fail = true) : s.read n = ([], s) := by
  simp [IfStream.read, h]

theorem ReadWord_consumes (s : IfStream) (w : Nat) : Consumes s (ReadWord s w).1 2 :=
  read_consumes s 2

theorem ReadByte_consumes (s : IfStream) (b : Byte) : Consumes s (ReadByte s b).1 1 :=
  read_consumes s 1

theorem ReadEntry_consumes (s : IfStream) (u : Uninit) : Consumes s (ReadEntry s u).1 6 :=
  ((ReadWord_consumes s u.low).trans (ReadWord_consumes _ u.mid)).trans
    (ReadWord_consumes _ u.high)

theorem ReadEvent_consumes (s : IfStream) (u : Uninit) (header : Header) (event : Event) :
    Consumes s (ReadEvent s u header event).1 6 :=
  ReadEntry_consumes s u

theorem ReadBufferEnd_consumes (s : IfStream) : Consumes s (ReadBufferEnd s) 8 :=
  (((ReadWord_consumes s 0).trans (ReadWord_consumes _ _)).trans
    (ReadWord_consumes _ _)).trans (ReadWord_consumes _ _)

theorem eventLoop_consumes (u : Uninit) (n : Nat) (st : State) :
    Consumes st.infile (eventLoop u n st).infile (6 * n) := by
  induction n generalizing st with
  | zero => exact Consumes.refl _
  | succ n ih =>
    rw [eventLoop]
    have h1 := ReadEvent_consumes st.infile u st.header st.event
    have h2 := h1.trans (ih
      { infile := (ReadEvent st.infile u st.header st.event).1, header := st.header,
        event := event0,
        rawdata := st.rawdata ++ [Fill (ReadEvent st.infile u st.header st.event).2 st.header],
        entry_num := st.entry_num + 1, buffer_num := st.buffer_num })
    have e : 6 + 6 * n = 6 * (n + 1) := by omega
    rw [e] at h2
    exact h2

theorem ReadBuffer_ret (s : IfStream) (u : Uninit) (header : Header) :
    (ReadBuffer s u header).1
      = if (ReadWord (ReadWord s header.bufferlength).1 header.buffertype).2 ≠ 0x0001
        then 1 else 0 := by
  unfold ReadBuffer
  simp only
  split <;> rfl

theorem ReadBuffer_accept_type (s : IfStream) (u : Uninit) (header : Header)
    (h : (ReadBuffer s u header).1 = 0) :
    (ReadWord (ReadWord s header.bufferlength).1 header.buffertype).2 = 0x0001
      ∧ (ReadBuffer s u header).2.2.buffertype = 0x0001
      ∧ (ReadBuffer s u header).2.2.bufferlength = (ReadWord s header.bufferlength).2 := by
  have hr := ReadBuffer_ret s u header
  by_cases ht : (ReadWord (ReadWord s header.bufferlength).1 header.buffertype).2 = 0x0001
  · refine ⟨ht, ?_, ?_⟩
    · unfold ReadBuffer
      simp only [ht]
      rw [if_neg (by decide)]
    · unfold ReadBuffer
      simp only [ht]
      rw [if_neg (by decide)]
  · rw [hr, if_pos ht] at h
    exact absurd h (by decide)

theorem ReadBuffer_consumes (s : IfStream) (u : Uninit) (header : Header)
    (h : (ReadBuffer s u header).1 = 0) : Consumes s (ReadBuffer s u header).2.1 42 := by
  have ht := (ReadBuffer_accept_type s u header h).1
  have hc := (((((((((((ReadWord_consumes s header.bufferlength).trans
    (ReadWord_consumes _ header.buffertype)).trans
    (ReadWord_consumes _ header.headerlength)).trans
    (ReadWord_consumes _ header.buffernumber)).trans
    (ReadWord_consumes _ header.runID)).trans
    (ReadByte_consumes _ header.mcpdID)).trans
    (ReadByte_consumes _ header.status)).trans
    (ReadEntry_consumes _ u)).trans
    (ReadEntry_consumes _ u)).trans
    (ReadEntry_consumes _ u)).trans
    (ReadEntry_consumes _ u)).trans
    (ReadEntry_consumes _ u)
  unfold ReadBuffer
  simp only [ht]
  rw [if_neg (by decide)]
  exact hc

/-! ## Short and failed reads -/

theorem ReadWord_failed (s : IfStream) (w : Nat) (h : s.fail = true) :
    ReadWord s w = (s, ByteSwap16 w) := by
  simp [ReadWord, read_failed s 2 h, store16]

theorem ReadWord_nil (w : Nat) :
    ReadWord { bytes := [], fail := false } w = ({ bytes := [], fail := true }, ByteSwap16 w) := by
  simp [ReadWord, IfStream.read, store16]

theorem ReadWord_single (c : Byte) (w : Nat) :
    ReadWord { bytes := [c], fail := false } w
      = ({ bytes := [], fail := true }, ByteSwap16 (w / 256 * 256 + c.val)) := by
  simp [ReadWord, IfStream.read, store16]

theorem ByteSwap16_byte_ne (c : Byte) : ByteSwap16 c.val ≠ 0x0001 := by
  revert c
  decide

theorem ByteSwap16_zero_one {t : Nat} (ht : t = 0 ∨ t = 1) : ByteSwap16 t ≠ 0x0001 := by
  rcases ht with rfl | rfl <;> decide

/-- On a stream that has failed or holds fewer than four bytes, the second word that
`ReadBuffer` reads is not `0x0001`, whenever `buffertype` held 0 or 1 before. -/
theorem second_word_short (s : IfStream) (bl bt : Nat) (hbt : bt = 0 ∨ bt = 1)
    (hs : s.fail = true ∨ s.bytes.length < 4) :
    (ReadWord (ReadWord s bl).1 bt).2 ≠ 0x0001 := by
  obtain ⟨bytes, fail⟩ := s
  cases fail
  · simp only [Bool.false_eq_true, false_or] at hs
    match bytes, hs with
    | [], _ =>
      rw [ReadWord_nil, ReadWord_failed _ _ rfl]
      exact ByteSwap16_zero_one hbt
    | [a], _ =>
      rw [ReadWord_single, ReadWord_failed _ _ rfl]
      exact ByteSwap16_zero_one hbt
    | [a, b], _ =>
      rw [ReadWord_cons, ReadWord_nil]
      exact ByteSwap16_zero_one hbt
    | [a, b, c], _ =>
      rw [ReadWord_cons, ReadWord_single]
      have e : bt / 256 * 256 + c.val = c.val := by rcases hbt with rfl | rfl <;> simp
      rw [e]
      exact ByteSwap16_byte_ne c
    | _ :: _ :: _ :: _ :: _, h =>
      simp only [List.length_cons] at h
      omega
  · rw [ReadWord_failed _ _ rfl, ReadWord_failed _ _ rfl]
    exact ByteSwap16_zero_one hbt

theorem ReadBuffer_exhausted (s : IfStream) (u : Uninit) (header : Header)
    (hbt : header.buffertype = 0 ∨ header.buffertype = 1)
    (hs : s.fail = true ∨ s.bytes.length < 4) :
    (ReadBuffer s u header).1 = 1 := by
  rw [ReadBuffer_ret, if_pos (second_word_short s _ _ hbt hs)]

theorem ReadBuffer_accept_inv (s : IfStream) (u : Uninit) (header : Header)
    (hbt : header.buffertype = 0 ∨ header.buffertype = 1)
    (h : (ReadBuffer s u header).1 = 0) :
    s.fail = false ∧ 4 ≤ s.bytes.length ∧ word16 s.bytes 2 = 0x0001 := by
  have hgood : ¬ (s.fail = true ∨ s.bytes.length < 4) := by
    intro hs
    rw [ReadBuffer_exhausted s u header hbt hs] at h
    exact absurd h (by decide)
  have hf : s.fail = false := by
    cases hfl : s.fail
    · rfl
    · exact absurd (Or.inl hfl) hgood
  have hl : 4 ≤ s.bytes.length := by
    by_contra hc
    exact hgood (Or.inr (by omega))
  refine ⟨hf, hl, ?_⟩
  have ht := (ReadBuffer_accept_type s u header h).1
  obtain ⟨bytes, fail⟩ := s
  simp only at hf hl
  subst hf
  match bytes, hl with
  | a :: b :: c :: d :: rest, _ =>
    rw [ReadWord_cons, ReadWord_cons] at ht
    exact ht

theorem bufferBody_flag (u : Uninit) (st : State) :
    (bufferBody u st).1 = false ↔ (ReadBuffer st.infile u st.header).1 = 0 := by
  have hr := ReadBuffer_ret st.infile u st.header
  constructor
  · intro h
    by_contra h0
    have h1 : (ReadBuffer st.infile u st.header).1 = 1 := by
      rw [hr] at h0 ⊢
      by_cases ht : (ReadWord (ReadWord st.infile st.header.bufferlength).1
          st.header.buffertype).2 ≠ 0x0001
      · rw [if_pos ht]
      · rw [if_neg ht] at h0
        exact absurd rfl h0
    unfold bufferBody at h
    simp only [h1, if_true] at h
    exact absurd h (by decide)
  · intro h
    rw [bufferBody_of_accept u st h]

/-- A pass that stays in the loop: the header was accepted from a good stream holding
four bytes or more, the second word being `0x0001`; at least four bytes are gone after
the pass, and `buffertype` holds 1. -/
theorem bufferBody_continue (u : Uninit) (st : State)
    (hbt : st.header.buffertype = 0 ∨ st.header.buffertype = 1)
    (hc : (bufferBody u st).1 = false) :
    st.infile.fail = false ∧ 4 ≤ st.infile.bytes.length
      ∧ word16 st.infile.bytes 2 = 0x0001
      ∧ avail (bufferBody u st).2.infile + 4 ≤ avail st.infile
      ∧ (bufferBody u st).2.header.buffertype = 0x0001 := by
  have hacc := (bufferBody_flag u st).1 hc
  obtain ⟨hf, hl, hw⟩ := ReadBuffer_accept_inv st.infile u st.header hbt hacc
  have hcons := ((ReadBuffer_consumes st.infile u st.header hacc).trans
    (eventLoop_consumes u (bufferEntries (ReadBuffer st.infile u st.header).2.2).toNat
      { st with
        infile := (ReadBuffer st.infile u st.header).2.1
        header := (ReadBuffer st.infile u st.header).2.2
        buffer_num := st.buffer_num + 1 })).trans (ReadBufferEnd_consumes _)
  have hh := (eventLoop_length u (bufferEntries (ReadBuffer st.infile u st.header).2.2).toNat
      { st with
        infile := (ReadBuffer st.infile u st.header).2.1
        header := (ReadBuffer st.infile u st.header).2.2
        buffer_num := st.buffer_num + 1 }).2.2.1
  refine ⟨hf, hl, hw, ?_, ?_⟩
  · rw [bufferBody_of_accept u st hacc]
    simp only
    unfold avail
    rw [hf]
    simp only [Bool.false_eq_true, if_false]
    split
    · omega
    · rename_i hgood
      have := (hcons (by simpa using hgood)).2
      omega
  · rw [bufferBody_of_accept u st hacc]
    simp only
    rw [hh]
    exact (ReadBuffer_accept_type st.infile u st.header hacc).2.1

theorem bufferLoop_terminates (u : Uninit) (fuel : Nat) (st : State)
    (hbt : st.header.buffertype = 0 ∨ st.header.buffertype = 1)
    (hfuel : avail st.infile < fuel) :
    ∃ st1 : State, bufferLoop u fuel st = some st1 := by
  induction fuel generalizing st with
  | zero => omega
  | succ fuel ih =>
    rw [bufferLoop]
    rcases hbody : bufferBody u st with ⟨flag, st2⟩
    cases flag
    · have hc : (bufferBody u st).1 = false := by rw [hbody]
      obtain ⟨_, _, _, hav, hty⟩ := bufferBody_continue u st hbt hc
      rw [hbody] at hav hty
      exact ih st2 (Or.inr hty) (by simp only at hav; omega)
    · exact ⟨st2, rfl⟩

theorem avail_le_of_consumes {s s1 : IfStream} {n : Nat} (h : Consumes s s1 n) :
    avail s1 ≤ avail s := by
  unfold avail
  cases hf : s1.fail
  · obtain ⟨h1, h2⟩ := h hf
    simp only [h1, Bool.false_eq_true, if_false]
    omega
  · simp

/-- A pass that stays in the loop, whatever `header` held before: nothing is given back
to the stream, and `buffertype` holds 1 after it. -/
theorem bufferBody_continue_any (u : Uninit) (st : State)
    (hc : (bufferBody u st).1 = false) :
    avail (bufferBody u st).2.infile ≤ avail st.infile
      ∧ (bufferBody u st).2.header.buffertype = 0x0001 := by
  have hacc := (bufferBody_flag u st).1 hc
  have hcons := ((ReadBuffer_consumes st.infile u st.header hacc).trans
    (eventLoop_consumes u (bufferEntries (ReadBuffer st.infile u st.header).2.2).toNat
      { st with
        infile := (ReadBuffer st.infile u st.header).2.1
        header := (ReadBuffer st.infile u st.header).2.2
        buffer_num := st.buffer_num + 1 })).trans (ReadBufferEnd_consumes _)
  have hh := (eventLoop_length u (bufferEntries (ReadBuffer st.infile u st.header).2.2).toNat
      { st with
        infile := (ReadBuffer st.infile u st.header).2.1
        header := (ReadBuffer st.infile u st.header).2.2
        buffer_num := st.buffer_num + 1 }).2.2.1
  rw [bufferBody_of_accept u st hacc]
  refine ⟨avail_le_of_consumes hcons, ?_⟩
  simp only
  rw [hh]
  exact (ReadBuffer_accept_type st.infile u st.header hacc).2.1

/-- Whatever `header` holds on entry, the loop is left: a first pass may stay in the loop
without consuming input, every later one consumes four bytes or more. -/
theorem bufferLoop_terminates_any (u : Uninit) (fuel : Nat) (st : State)
    (hfuel : avail st.infile + 1 < fuel) :
    ∃ st1 : State, bufferLoop u fuel st = some st1 := by
  obtain ⟨fuel, rfl⟩ : ∃ k, fuel = k + 1 := ⟨fuel - 1, by omega⟩
  rw [bufferLoop]
  rcases hbody : bufferBody u st with ⟨flag, st2⟩
  cases flag
  · have hc : (bufferBody u st).1 = false := by rw [hbody]
    obtain ⟨hav, hty⟩ := bufferBody_continue_any u st hc
    rw [hbody] at hav hty
    exact bufferLoop_terminates u fuel st2 (Or.inr hty) (by simp only at hav; omega)
  · exact ⟨st2, rfl⟩

theorem avail_initState (file : List Byte) (header : Header) :
    avail (initState file header).infile ≤ file.length := by
  have h := avail_le_of_consumes (read_consumes { bytes := file, fail := false } 58)
  unfold initState ReadHeader
  simp only
  unfold avail at h ⊢
  simpa using h

theorem mdat2root_terminates (file : List Byte) (u : Uninit) (header : Header) :
    ∃ st : State, mdat2root file u header = some st :=
  bufferLoop_terminates_any u _ _ (by have := avail_initState file header; omega)

theorem bufferEntries_small (header : Header) (h : header.bufferlength < 21) :
    bufferEntries header = -(((21 - header.bufferlength) / 3 : Nat) : Int)
      ∧ bufferEntries header ≤ 0
      ∧ (bufferEntries header).toNat = 0 := by
  have key : ∀ L : Nat, L < 21 →
      Int.tdiv ((L : Int) - 21) 3 = -(((21 - L) / 3 : Nat) : Int)
        ∧ Int.tdiv ((L : Int) - 21) 3 ≤ 0
        ∧ (Int.tdiv ((L : Int) - 21) 3).toNat = 0 := by
    decide
  exact key header.bufferlength h

theorem ReadBuffer_bufferlength_lt (s : IfStream) (u : Uninit) (header : Header) :
    (ReadBuffer s u header).2.2.bufferlength < 65536 := by
  have h1 := ReadWord_lt s header.bufferlength
  unfold ReadBuffer
  simp only
  split
  · exact h1
  · exact h1

theorem bufferEntries_le (s : IfStream) (u : Uninit) (header : Header) :
    (bufferEntries (ReadBuffer s u header).2.2).toNat ≤ (65535 - 21) / 3 := by
  have hlt := ReadBuffer_bufferlength_lt s u header
  by_cases h : 21 ≤ (ReadBuffer s u header).2.2.bufferlength
  · rw [bufferEntries_toNat _ h]
    omega
  · rw [(bufferEntries_small _ (by omega)).2.2]
    omega

theorem eventLoop_drop (u : Uninit) (bs : List Byte) (n k : Nat) (st : State)
    (hin : st.infile = { bytes := bs.drop k, fail := false }) (hlen : k + 6 * n ≤ bs.length) :
    (eventLoop u n st).infile = { bytes := bs.drop (k + 6 * n), fail := false } := by
  induction n generalizing st k with
  | zero => simpa using hin
  | succ n ih =>
    rw [eventLoop]
    have h1 : (ReadEvent st.infile u st.header st.event).1
        = { bytes := bs.drop (k + 6), fail := false } := by
      rw [ReadEvent_stream, hin, ReadEntry_drop bs k u (by omega)]
    have h2 := ih (k + 6)
      { infile := (ReadEvent st.infile u st.header st.event).1, header := st.header,
        event := event0,
        rawdata := st.rawdata ++ [Fill (ReadEvent st.infile u st.header st.event).2 st.header],
        entry_num := st.entry_num + 1, buffer_num := st.buffer_num } h1 (by omega)
    have e : k + 6 + 6 * n = k + 6 * (n + 1) := by omega
    rw [e] at h2
    exact h2

theorem ReadBufferEnd_drop (bs : List Byte) (k : Nat) (hlen : k + 8 ≤ bs.length) :
    ReadBufferEnd { bytes := bs.drop k, fail := false }
      = { bytes := bs.drop (k + 8), fail := false } := by
  unfold ReadBufferEnd
  simp only [ReadWord_drop bs k _ (by omega), ReadWord_drop bs (k + 2) _ (by omega),
    ReadWord_drop bs (k + 2 + 2) _ (by omega), ReadWord_drop bs (k + 2 + 2 + 2) _ (by omega)]

theorem tubeExpr_arith (mcpdID : Byte) (modID slotID : Nat) (hm : 1 ≤ mcpdID.val)
    (hmod : modID ≤ 3) (hslot : slotID ≤ 15) :
    tubeExpr mcpdID modID slotID % 65536 = (mcpdID.val - 1) * 64 + modID * 16 + slotID := by
  obtain ⟨e, hlt⟩ := tubeExpr_of_pos mcpdID modID slotID hm (by omega) hslot
  rw [Nat.mod_eq_of_lt hlt, e, Nat.lor_assoc, Nat.shiftLeft_eq, Nat.shiftLeft_eq]
  have h4 : slotID < 2 ^ 4 := by omega
  have e1 : modID * 2 ^ 4 ||| slotID = 2 ^ 4 * modID + slotID := by
    rw [Nat.mul_comm]
    exact (Nat.mul_add_lt_is_or h4 modID).symm
  have h6 : 2 ^ 4 * modID + slotID < 2 ^ 6 := by omega
  rw [e1, Nat.mul_comm (mcpdID.val - 1), ← Nat.mul_add_lt_is_or h6]
  omega

theorem tubeExpr_zero (modID slotID : Nat) (hmod : modID < 8) (hslot : slotID < 16) :
    tubeExpr 0 modID slotID % 65536 = 65472 + 16 * (modID % 4) + slotID := by
  have key : ∀ m : Nat, m < 8 → ∀ s : Nat, s < 16 →
      tubeExpr 0 m s % 65536 = 65472 + 16 * (m % 4) + s := by
    decide
  exact key modID hmod slotID hslot

/-! ## Input that ends inside a buffer -/

theorem ReadBuffer_four_accept (c0 c1 c2 c3 : Byte) (rest : List Byte) (u : Uninit)
    (header : Header) (ht : c2.val * 256 + c3.val = 0x0001) :
    (ReadBuffer { bytes := c0 :: c1 :: c2 :: c3 :: rest, fail := false } u header).1 = 0
      ∧ (ReadBuffer { bytes := c0 :: c1 :: c2 :: c3 :: rest, fail := false } u
          header).2.2.bufferlength = c0.val * 256 + c1.val := by
  have hacc : (ReadBuffer { bytes := c0 :: c1 :: c2 :: c3 :: rest, fail := false } u
      header).1 = 0 := by
    rw [ReadBuffer_ret, ReadWord_cons, ReadWord_cons, if_neg (by simp [ht])]
  refine ⟨hacc, ?_⟩
  rw [(ReadBuffer_accept_type _ u header hacc).2.2, ReadWord_cons]

theorem ReadBuffer_reject_stream (s : IfStream) (u : Uninit) (header : Header)
    (h : (ReadBuffer s u header).1 = 1) : Consumes s (ReadBuffer s u header).2.1 4 := by
  have hc := (ReadWord_consumes s header.bufferlength).trans
    (ReadWord_consumes _ header.buffertype)
  have ht : (ReadWord (ReadWord s header.bufferlength).1 header.buffertype).2 ≠ 0x0001 := by
    intro hh
    rw [ReadBuffer_ret, if_neg (by simp [hh])] at h
    exact absurd h (by decide)
  unfold ReadBuffer
  simp only
  rw [if_pos ht]
  exact hc

theorem bufferBody_of_reject (u : Uninit) (st : State)
    (h : (ReadBuffer st.infile u st.header).1 = 1) :
    bufferBody u st =
      (true, { st with
        infile := (ReadBuffer st.infile u st.header).2.1
        header := (ReadBuffer st.infile u st.header).2.2 }) := by
  unfold bufferBody
  simp only [h, if_true]

theorem eventLoop_rawdata (u : Uninit) (n : Nat) (st : State) :
    ∃ extra : List Record,
      (eventLoop u n st).rawdata = st.rawdata ++ extra ∧ extra.length = n := by
  induction n generalizing st with
  | zero => exact ⟨[], by simp [eventLoop], rfl⟩
  | succ n ih =>
    rw [eventLoop]
    obtain ⟨extra, h1, h2⟩ := ih
      { infile := (ReadEvent st.infile u st.header st.event).1, header := st.header,
        event := event0,
        rawdata := st.rawdata ++ [Fill (ReadEvent st.infile u st.header st.event).2 st.header],
        entry_num := st.entry_num + 1, buffer_num := st.buffer_num }
    refine ⟨Fill (ReadEvent st.infile u st.header st.event).2 st.header :: extra, ?_, ?_⟩
    · rw [h1]
      simp
    · simp [h2]

/-- The state after a pass that accepted its header, field by field. -/
theorem bufferBody_accept_fields (u : Uninit) (st : State)
    (hacc : (ReadBuffer st.infile u st.header).1 = 0) :
    (bufferBody u st).1 = false
      ∧ (bufferBody u st).2.header = (ReadBuffer st.infile u st.header).2.2
      ∧ (bufferBody u st).2.buffer_num = st.buffer_num + 1
      ∧ (bufferBody u st).2.entry_num
          = st.entry_num + (bufferEntries (ReadBuffer st.infile u st.header).2.2).toNat
      ∧ (∃ extra : List Record, (bufferBody u st).2.rawdata = st.rawdata ++ extra
          ∧ extra.length = (bufferEntries (ReadBuffer st.infile u st.header).2.2).toNat)
      ∧ Consumes st.infile (bufferBody u st).2.infile
          (42 + 6 * (bufferEntries (ReadBuffer st.infile u st.header).2.2).toNat + 8) := by
  have hcons := ((ReadBuffer_consumes st.infile u st.header hacc).trans
    (eventLoop_consumes u (bufferEntries (ReadBuffer st.infile u st.header).2.2).toNat
      { st with
        infile := (ReadBuffer st.infile u st.header).2.1
        header := (ReadBuffer st.infile u st.header).2.2
        buffer_num := st.buffer_num + 1 })).trans (ReadBufferEnd_consumes _)
  obtain ⟨_, l2, l3, l4⟩ :=
    eventLoop_length u (bufferEntries (ReadBuffer st.infile u st.header).2.2).toNat
      { st with
        infile := (ReadBuffer st.infile u st.header).2.1
        header := (ReadBuffer st.infile u st.header).2.2
        buffer_num := st.buffer_num + 1 }
  have l5 := eventLoop_rawdata u (bufferEntries (ReadBuffer st.infile u st.header).2.2).toNat
      { st with
        infile := (ReadBuffer st.infile u st.header).2.1
        header := (ReadBuffer st.infile u st.header).2.2
        buffer_num := st.buffer_num + 1 }
  rw [bufferBody_of_accept u st hacc]
  exact ⟨rfl, l3, l4, l2, l5, hcons⟩

theorem bufferLoop_cut (u : Uninit) (fuel : Nat) (st : State) (c0 c1 c2 c3 : Byte)
    (rest : List Byte)
    (hin : st.infile = { bytes := c0 :: c1 :: c2 :: c3 :: rest, fail := false })
    (ht : c2.val * 256 + c3.val = 0x0001) (hL : 21 ≤ c0.val * 256 + c1.val)
    (hshort : rest.length + 4 < 42 + 6 * ((c0.val * 256 + c1.val - 21) / 3) + 8) :
    ∃ (st1 : State) (extra : List Record),
      bufferLoop u (fuel + 2) st = some st1
        ∧ st1.buffer_num = st.buffer_num + 1
        ∧ st1.entry_num = st.entry_num + (c0.val * 256 + c1.val - 21) / 3
        ∧ st1.rawdata = st.rawdata ++ extra
        ∧ extra.length = (c0.val * 256 + c1.val - 21) / 3
        ∧ st1.infile.fail = true := by
  obtain ⟨hacc, hbl⟩ := ReadBuffer_four_accept c0 c1 c2 c3 rest u st.header ht
  rw [← hin] at hacc hbl
  have hn : (bufferEntries (ReadBuffer st.infile u st.header).2.2).toNat
      = (c0.val * 256 + c1.val - 21) / 3 := by
    rw [bufferEntries_toNat _ (by rw [hbl]; exact hL), hbl]
  obtain ⟨f1, f2, f3, f4, ⟨extra, f5, f6⟩, f7⟩ := bufferBody_accept_fields u st hacc
  rw [hn] at f4 f6 f7
  have hfail : (bufferBody u st).2.infile.fail = true := by
    cases hf : (bufferBody u st).2.infile.fail
    · have := (f7 hf).2
      rw [hin] at this
      simp only [List.length_cons] at this
      omega
    · rfl
  have hty : (bufferBody u st).2.header.buffertype = 0x0001 := by
    rw [f2]
    exact (ReadBuffer_accept_type st.infile u st.header hacc).2.1
  have hrej := ReadBuffer_exhausted (bufferBody u st).2.infile u (bufferBody u st).2.header
    (Or.inr hty) (Or.inl hfail)
  have hfail2 : (ReadBuffer (bufferBody u st).2.infile u (bufferBody u st).2.header).2.1.fail
      = true := by
    cases hf : (ReadBuffer (bufferBody u st).2.infile u (bufferBody u st).2.header).2.1.fail
    · have := (ReadBuffer_reject_stream _ u _ hrej hf).1
      rw [hfail] at this
      exact absurd this (by decide)
    · rfl
  refine ⟨{ (bufferBody u st).2 with
      infile := (ReadBuffer (bufferBody u st).2.infile u (bufferBody u st).2.header).2.1
      header := (ReadBuffer (bufferBody u st).2.infile u (bufferBody u st).2.header).2.2 },
    extra, ?_, f3, f4, f5, f6, hfail2⟩
  have e : fuel + 2 = (fuel + 1) + 1 := rfl
  rw [e, bufferLoop]
  rcases hb : bufferBody u st with ⟨flag, st2⟩
  rw [hb] at f1 hrej
  simp only at f1 hrej
  subst f1
  simp only
  rw [bufferLoop, bufferBody_of_reject u st2 hrej]

theorem bufferLoop_prefix (u : Uninit) (bufs : List RawBuffer) (rest : List Byte)
    (hwf : ∀ b ∈ bufs, b.WellFormed) (fuel : Nat) (st : State)
    (hin : st.infile
      = { bytes := (bufs.map RawBuffer.bytes).flatten ++ rest, fail := false })
    (hev : st.event = event0) :
    ∃ header : Header, bufferLoop u (bufs.length + fuel) st = bufferLoop u fuel
      { infile := { bytes := rest, fail := false }
        header := header
        event := event0
        rawdata := st.rawdata ++ (bufs.map (RawBuffer.records u)).flatten
        entry_num := st.entry_num + (bufs.map fun b => (b.bufferLength - 21) / 3).sum
        buffer_num := st.buffer_num + bufs.length } := by
  induction bufs generalizing st with
  | nil =>
    obtain ⟨infile, header, event, rawdata, entry_num, buffer_num⟩ := st
    simp only [List.map_nil, List.flatten_nil, List.nil_append] at hin hev
    subst hin hev
    exact ⟨header, by simp⟩
  | cons b bs ih =>
    have hb := hwf b (List.mem_cons_self _ _)
    have hbs : ∀ x ∈ bs, x.WellFormed := fun x hx => hwf x (List.mem_cons_of_mem _ hx)
    have hin2 : st.infile
        = { bytes := b.bytes ++ ((bs.map RawBuffer.bytes).flatten ++ rest), fail := false } := by
      rw [hin]
      simp
    have e : (b :: bs).length + fuel = (bs.length + fuel) + 1 := by
      simp only [List.length_cons]
      omega
    rw [e, bufferLoop, bufferBody_wellformed u b _ st hb hin2 hev]
    simp only
    obtain ⟨h, hh⟩ := ih hbs
      { st with
        infile := { bytes := (bs.map RawBuffer.bytes).flatten ++ rest, fail := false }
        header := b.header u
        rawdata := st.rawdata ++ b.records u
        entry_num := st.entry_num + (b.bufferLength - 21) / 3
        buffer_num := st.buffer_num + 1 }
      rfl hev
    refine ⟨h, ?_⟩
    rw [hh]
    simp [Nat.add_assoc, Nat.add_comm 1]

theorem entries_flatten_length (entries : List (List Byte))
    (h : ∀ e ∈ entries, e.length = 6) : entries.flatten.length = 6 * entries.length := by
  induction entries with
  | nil => rfl
  | cons e es ih =>
    have h1 := h e (List.mem_cons_self _ _)
    have h2 := ih (fun x hx => h x (List.mem_cons_of_mem _ hx))
    simp only [List.flatten_cons, List.length_append, List.length_cons]
    omega

theorem RawBuffer.bytes_length (b : RawBuffer) (hwf : b.WellFormed) :
    b.bytes.length = 42 + 6 * ((b.bufferLength - 21) / 3) + 8 := by
  obtain ⟨hl, _, _, hn, he, htl⟩ := hwf
  have := entries_flatten_length b.entries he
  simp only [RawBuffer.bytes, List.length_append]
  omega

theorem RawBuffer.take_shape (b : RawBuffer) (k : Nat) (hwf : b.WellFormed) (hk4 : 4 ≤ k) :
    ∃ (c0 c1 c2 c3 : Byte) (rest : List Byte),
      b.bytes.take k = c0 :: c1 :: c2 :: c3 :: rest
        ∧ c0.val * 256 + c1.val = b.bufferLength
        ∧ c2.val * 256 + c3.val = 0x0001
        ∧ rest.length + 4 ≤ k := by
  obtain ⟨hl, ht, _, _, _, _⟩ := hwf
  obtain ⟨hdr, entries, trailer⟩ := b
  obtain ⟨k, rfl⟩ : ∃ j, k = j + 4 := ⟨k - 4, by omega⟩
  simp only [RawBuffer.bufferType, RawBuffer.bufferLength, RawBuffer.bytes] at hl ht ⊢
  match hdr, hl with
  | c0 :: c1 :: c2 :: c3 :: h4, _ =>
    refine ⟨c0, c1, c2, c3, List.take k (h4 ++ (entries.flatten ++ trailer)), ?_, ?_, ?_, ?_⟩
    · simp [List.take]
    · simp [word16]
    · simpa [word16] using ht
    · have := List.length_take_le k (h4 ++ (entries.flatten ++ trailer))
      omega

/-! ## The claims -/

/-- C1: for every input made of a 58-byte prologue, then `n ≥ 0` well-formed buffers
(a 21-word header with `bufferType = 0x0001` and `bufferLength = L_i ≥ 21`, then
`(L_i - 21) / 3` six-byte entries, then a 4-word trailer), then a header whose
`bufferType` is not `0x0001`, the loop of `mdat2root` is left with `rawdata` holding
exactly one record per entry, in file order, each the decode (`ReadEvent` followed by
`Fill`) of its own entry against the header of its own buffer, with
`entry_num = Σ (L_i - 21) / 3` and `buffer_num = n`, whatever the global `header`
holds on entry. -/
theorem mdat2root_wellformed (prologue : List Byte) (bufs : List RawBuffer)
    (t0 t1 t2 t3 : Byte) (tail : List Byte) (u : Uninit) (header : Header)
    (hp : prologue.length = 58)
    (hwf : ∀ b ∈ bufs, b.WellFormed) (ht : t2.val * 256 + t3.val ≠ 0x0001) :
    ∃ st : State,
      mdat2root (fileBytes prologue bufs (t0 :: t1 :: t2 :: t3 :: tail)) u header = some st
        ∧ st.rawdata = (bufs.map (RawBuffer.records u)).flatten
        ∧ st.rawdata = (entriesInOrder u bufs).map (fun p => decodeEntry u p.1 p.2)
        ∧ st.rawdata.length = (bufs.map fun b => b.entries.length).sum
        ∧ st.entry_num = (bufs.map fun b => (b.bufferLength - 21) / 3).sum
        ∧ st.buffer_num = bufs.length := by
  obtain ⟨h, hh⟩ := mdat2root_run prologue bufs t0 t1 t2 t3 tail u header hp hwf ht
  exact ⟨_, hh, rfl, records_eq_map u bufs, records_length u bufs, rfl, rfl⟩

theorem mdat2root_wellformed_witness :
    (List.replicate 58 (0 : Byte)).length = 58
      ∧ (∀ b ∈ [sampleBuffer], b.WellFormed)
      ∧ (0 : Byte).val * 256 + (0 : Byte).val ≠ 0x0001
      ∧ ∃ st : State,
          mdat2root (fileBytes (List.replicate 58 0) [sampleBuffer] [0, 0, 0, 0]) ⟨0, 0, 0⟩
              header0 = some st
            ∧ st.rawdata.map (fun r => (r.tubeID, r.time, r.modID, r.slotID, r.amp, r.eventTS))
                = [(37, 1042, 2, 5, 37, 42)]
            ∧ st.entry_num = 1
            ∧ st.buffer_num = 1 := by
  refine ⟨by decide, by decide, by decide, ?_⟩
  obtain ⟨st, h1, h2, _, _, h5, h6⟩ :=
    mdat2root_wellformed (List.replicate 58 0) [sampleBuffer] 0 0 0 0 [] ⟨0, 0, 0⟩ header0
      (by decide) (by decide) (by decide)
  refine ⟨st, h1, ?_, ?_, ?_⟩
  · rw [h2]
    decide
  · rw [h5]
    decide
  · rw [h6]
    rfl

/-- C2: for every raw entry delivered by `ReadEntry` (a value below `2^48`) whose bit 47
is 0, `ReadEvent` sets `eventID = 0`, `modID` to bits 44-46 of the entry, `slotID` to
bits 39-42 and `xpos` to bits 19-28, so that `modID ≤ 7`, `slotID ≤ 15`, `xpos ≤ 1023`. -/
theorem ReadEvent_detector_fields (infile : IfStream) (u : Uninit) (header : Header)
    (event : Event) (raw : Nat) (hraw : (ReadEntry infile u).2 = raw)
    (h47 : raw.testBit 47 = false) :
    raw < 2 ^ 48
      ∧ (ReadEvent infile u header event).2.eventID = 0
      ∧ (ReadEvent infile u header event).2.modID = raw / 2 ^ 44 % 2 ^ 3
      ∧ (ReadEvent infile u header event).2.slotID = raw / 2 ^ 39 % 2 ^ 4
      ∧ (ReadEvent infile u header event).2.xpos = raw / 2 ^ 19 % 2 ^ 10
      ∧ (ReadEvent infile u header event).2.modID ≤ 7
      ∧ (ReadEvent infile u header event).2.slotID ≤ 15
      ∧ (ReadEvent infile u header event).2.xpos ≤ 1023 := by
  subst hraw
  rw [ReadEvent_detector infile u header event h47]
  refine ⟨ReadEntry_lt infile u, rfl, rfl, rfl, rfl, ?_, ?_, ?_⟩ <;> simp only <;> omega

theorem ReadEvent_detector_fields_witness :
    (ReadEntry { bytes := sampleEntry, fail := false } ⟨0, 0, 0⟩).2 = 0x2284a000002a
      ∧ (0x2284a000002a : Nat).testBit 47 = false
      ∧ (ReadEvent { bytes := sampleEntry, fail := false } ⟨0, 0, 0⟩ header0 event0).2.modID
          = 0x2284a000002a / 2 ^ 44 % 2 ^ 3 :=
  ⟨by decide, by decide,
    (ReadEvent_detector_fields { bytes := sampleEntry, fail := false } ⟨0, 0, 0⟩ header0 event0
      0x2284a000002a (by decide) (by decide)).2.2.1⟩

/-- C3: for every raw entry delivered by `ReadEntry` whose bit 47 is 1, `ReadEvent` sets
`eventID = 1`, `trigID` to bits 44-46 of the entry, `dataID` to bits 40-43 and `tData` to
the 21-bit field at bits 19-39, so that `trigID ≤ 7`, `dataID ≤ 15`, `tData < 2^21`. -/
theorem ReadEvent_trigger_fields (infile : IfStream) (u : Uninit) (header : Header)
    (event : Event) (raw : Nat) (hraw : (ReadEntry infile u).2 = raw)
    (h47 : raw.testBit 47 = true) :
    raw < 2 ^ 48
      ∧ (ReadEvent infile u header event).2.eventID = 1
      ∧ (ReadEvent infile u header event).2.trigID = raw / 2 ^ 44 % 2 ^ 3
      ∧ (ReadEvent infile u header event).2.dataID = raw / 2 ^ 40 % 2 ^ 4
      ∧ (ReadEvent infile u header event).2.tData = raw / 2 ^ 19 % 2 ^ 21
      ∧ (ReadEvent infile u header event).2.trigID ≤ 7
      ∧ (ReadEvent infile u header event).2.dataID ≤ 15
      ∧ (ReadEvent infile u header event).2.tData < 2 ^ 21 := by
  subst hraw
  rw [ReadEvent_trigger infile u header event h47]
  refine ⟨ReadEntry_lt infile u, rfl, rfl, rfl, rfl, ?_, ?_, ?_⟩ <;> simp only <;> omega

theorem ReadEvent_trigger_fields_witness :
    (ReadEntry { bytes := sampleTrigger, fail := false } ⟨0, 0, 0⟩).2 = 0xa284a000002a
      ∧ (0xa284a000002a : Nat).testBit 47 = true
      ∧ (ReadEvent { bytes := sampleTrigger, fail := false } ⟨0, 0, 0⟩ header0 event0).2.eventID
          = 1 :=
  ⟨by decide, by decide,
    (ReadEvent_trigger_fields { bytes := sampleTrigger, fail := false } ⟨0, 0, 0⟩ header0 event0
      0xa284a000002a (by decide) (by decide)).2.1⟩

/-- C4: for every raw entry with discriminator bit 0 decoded under a header with
`mcpdID ≥ 1`, the stored `tubeID` equals `((mcpdID - 1) << 6) | (modID << 4) | slotID`
for the `modID` (bits 44-46) and `slotID` (bits 39-42) the entry encodes; the `int`
value of the right-hand side of line 143 is this number and is below `2^16`, so the
16-bit field truncates nothing. -/
theorem ReadEvent_tubeID (infile : IfStream) (u : Uninit) (header : Header)
    (event : Event) (raw : Nat) (hraw : (ReadEntry infile u).2 = raw)
    (h47 : raw.testBit 47 = false) (hm : 1 ≤ header.mcpdID.val) :
    (ReadEvent infile u header event).2.modID = raw / 2 ^ 44 % 2 ^ 3
      ∧ (ReadEvent infile u header event).2.slotID = raw / 2 ^ 39 % 2 ^ 4
      ∧ (ReadEvent infile u header event).2.tubeID
          = (((header.mcpdID.val - 1) <<< 6)
              ||| ((ReadEvent infile u header event).2.modID <<< 4))
            ||| (ReadEvent infile u header event).2.slotID
      ∧ tubeExpr header.mcpdID (ReadEvent infile u header event).2.modID
          (ReadEvent infile u header event).2.slotID
          = (ReadEvent infile u header event).2.tubeID
      ∧ (ReadEvent infile u header event).2.tubeID < 2 ^ 16 := by
  subst hraw
  rw [ReadEvent_detector infile u header event h47]
  simp only
  have hmod : (ReadEntry infile u).2 / 2 ^ 44 % 8 ≤ 7 := by omega
  have hslot : (ReadEntry infile u).2 / 2 ^ 39 % 16 ≤ 15 := by omega
  obtain ⟨e, hlt⟩ := tubeExpr_of_pos header.mcpdID _ _ hm hmod hslot
  rw [Nat.mod_eq_of_lt hlt]
  exact ⟨rfl, rfl, e, rfl, hlt⟩

theorem ReadEvent_tubeID_witness :
    (ReadEntry { bytes := sampleEntry, fail := false } ⟨0, 0, 0⟩).2 = 0x2284a000002a
      ∧ (0x2284a000002a : Nat).testBit 47 = false
      ∧ 1 ≤ ({ header0 with mcpdID := 3 } : Header).mcpdID.val
      ∧ (ReadEvent { bytes := sampleEntry, fail := false } ⟨0, 0, 0⟩
            { header0 with mcpdID := 3 } event0).2.tubeID
          = (((({ header0 with mcpdID := 3 } : Header).mcpdID.val - 1) <<< 6)
              ||| ((ReadEvent { bytes := sampleEntry, fail := false } ⟨0, 0, 0⟩
                    { header0 with mcpdID := 3 } event0).2.modID <<< 4))
            ||| (ReadEvent { bytes := sampleEntry, fail := false } ⟨0, 0, 0⟩
                    { header0 with mcpdID := 3 } event0).2.slotID :=
  ⟨by decide, by decide, by decide,
    (ReadEvent_tubeID { bytes := sampleEntry, fail := false } ⟨0, 0, 0⟩
      { header0 with mcpdID := 3 } event0 0x2284a000002a (by decide) (by decide)
      (by decide)).2.2.1⟩

/-- C5: for every raw entry, whatever its discriminator bit, and every header timestamp
below `2^48` (as `ReadEntry` produces them), `ReadEvent` sets `eventTS` to the low 19
bits of the entry and `time` to the exact sum `headerTS + eventTS`, which is below
`2^64`: the 64-bit addition does not wrap. -/
theorem ReadEvent_time (infile : IfStream) (u : Uninit) (header : Header)
    (event : Event) (raw : Nat) (hraw : (ReadEntry infile u).2 = raw)
    (hts : header.headerTS < 2 ^ 48) :
    (ReadEvent infile u header event).2.eventTS = raw % 2 ^ 19
      ∧ (ReadEvent infile u header event).2.time
          = header.headerTS + (ReadEvent infile u header event).2.eventTS
      ∧ header.headerTS + (ReadEvent infile u header event).2.eventTS < 2 ^ 64 := by
  subst hraw
  have hsum : ((ReadEntry infile u).2 % 2 ^ 19 + header.headerTS) % 2 ^ 64
      = header.headerTS + (ReadEntry infile u).2 % 2 ^ 19 := by omega
  cases h47 : (ReadEntry infile u).2.testBit 47
  · rw [ReadEvent_detector infile u header event h47]
    refine ⟨rfl, hsum, ?_⟩
    simp only
    omega
  · rw [ReadEvent_trigger infile u header event h47]
    refine ⟨rfl, hsum, ?_⟩
    simp only
    omega

theorem ReadEvent_time_witness :
    (ReadEntry { bytes := sampleTrigger, fail := false } ⟨0, 0, 0⟩).2 = 0xa284a000002a
      ∧ ({ header0 with headerTS := 2 ^ 48 - 1 } : Header).headerTS < 2 ^ 48
      ∧ (ReadEvent { bytes := sampleTrigger, fail := false } ⟨0, 0, 0⟩
            { header0 with headerTS := 2 ^ 48 - 1 } event0).2.time = 2 ^ 48 - 1 + 42 :=
  ⟨by decide, by decide,
    ((ReadEvent_time { bytes := sampleTrigger, fail := false } ⟨0, 0, 0⟩
      { header0 with headerTS := 2 ^ 48 - 1 } event0 0xa284a000002a (by decide)
      (by decide)).2.1).trans (by decide)⟩

/-- C6, as stated, fails: for the detector entry in which only bit 37 is set,
`(entry >> 29) mod 512` is 256 but the decoded amplitude is 0. -/
theorem amp_bit37_counterexample :
    (ReadEntry { bytes := sampleBit37, fail := false } ⟨0, 0, 0⟩).2 = 2 ^ 37
      ∧ (2 ^ 37 : Nat).testBit 47 = false
      ∧ (2 ^ 37 : Nat) / 2 ^ 29 % 512 = 256
      ∧ (ReadEvent { bytes := sampleBit37, fail := false } ⟨0, 0, 0⟩ header0 event0).2.amp = 0
      ∧ (ReadEvent { bytes := sampleBit37, fail := false } ⟨0, 0, 0⟩ header0 event0).2.amp
          ≠ (ReadEntry { bytes := sampleBit37, fail := false } ⟨0, 0, 0⟩).2 / 2 ^ 29 % 512 := by
  decide

/-- C6, amended: for every raw entry with discriminator bit 0, the decoded amplitude is
the 8-bit field at bits 29-36 of the entry (the eight set bits of `mask_amp`), that is
`amp = (entry >> 29) mod 256`. -/
theorem ReadEvent_amp (infile : IfStream) (u : Uninit) (header : Header)
    (event : Event) (raw : Nat) (hraw : (ReadEntry infile u).2 = raw)
    (h47 : raw.testBit 47 = false) :
    (ReadEvent infile u header event).2.amp = raw / 2 ^ 29 % 2 ^ 8
      ∧ (ReadEvent infile u header event).2.amp = (raw >>> 29) % 256 := by
  subst hraw
  rw [ReadEvent_detector infile u header event h47, Nat.shiftRight_eq_div_pow]
  exact ⟨rfl, rfl⟩

theorem ReadEvent_amp_witness :
    (ReadEntry { bytes := sampleEntry, fail := false } ⟨0, 0, 0⟩).2 = 0x2284a000002a
      ∧ (0x2284a000002a : Nat).testBit 47 = false
      ∧ (ReadEvent { bytes := sampleEntry, fail := false } ⟨0, 0, 0⟩ header0 event0).2.amp
          = 37 :=
  ⟨by decide, by decide,
    ((ReadEvent_amp { bytes := sampleEntry, fail := false } ⟨0, 0, 0⟩ header0 event0
      0x2284a000002a (by decide) (by decide)).1).trans (by decide)⟩

/-- C7: on every well-formed input, each record handed to the sink is the decode of its
own entry starting from the reset `event`; its `eventID` is bit 47 of that entry and
only that variant is populated: when `eventID = 0` the fields `trigID`, `dataID`,
`tData` are 0, when `eventID = 1` the fields `xpos`, `tubeID`, `modID`, `slotID`, `amp`
are 0.  Nothing of an earlier event survives: the record is a function of its own
entry and header alone, and `event` is back at `event0` when the loop is left.  On any
input at all, every record of a finished run has only the variant of its `eventID`
populated.  All this holds whatever the global `header` holds on entry. -/
theorem mdat2root_variants (prologue : List Byte) (bufs : List RawBuffer)
    (t0 t1 t2 t3 : Byte) (tail : List Byte) (u : Uninit) (header : Header)
    (hp : prologue.length = 58)
    (hwf : ∀ b ∈ bufs, b.WellFormed) (ht : t2.val * 256 + t3.val ≠ 0x0001) :
    (∃ st : State,
      mdat2root (fileBytes prologue bufs (t0 :: t1 :: t2 :: t3 :: tail)) u header = some st
        ∧ st.event = event0
        ∧ List.Forall₂
            (fun (p : Header × List Byte) (r : Record) =>
              r = Fill (ReadEvent { bytes := p.2, fail := false } u p.1 event0).2 p.1
                ∧ r.eventID = (ReadEntry { bytes := p.2, fail := false } u).2 / 2 ^ 47 % 2
                ∧ (r.eventID = 0 ∨ r.eventID = 1)
                ∧ (r.eventID = 0 → r.trigID = 0 ∧ r.dataID = 0 ∧ r.tData = 0)
                ∧ (r.eventID = 1 →
                    r.xpos = 0 ∧ r.tubeID = 0 ∧ r.modID = 0 ∧ r.slotID = 0 ∧ r.amp = 0))
            (entriesInOrder u bufs) st.rawdata)
      ∧ ∀ (file : List Byte) (entry : Header) (st : State),
          mdat2root file u entry = some st →
            st.event = event0 ∧ ∀ r ∈ st.rawdata, r.OneVariant := by
  obtain ⟨h, hh⟩ := mdat2root_run prologue bufs t0 t1 t2 t3 tail u header hp hwf ht
  refine ⟨⟨_, hh, rfl, ?_⟩,
    fun file entry st hrun => mdat2root_variant file u entry st hrun⟩
  simp only
  rw [records_eq_map u bufs, List.forall₂_map_right_iff, List.forall₂_same]
  intro p _
  exact ⟨rfl, (Fill_ReadEvent_variant _ u p.1).1, (Fill_ReadEvent_variant _ u p.1).2⟩

theorem mdat2root_variants_witness :
    (List.replicate 58 (0 : Byte)).length = 58
      ∧ (∀ b ∈ [sampleBuffer, { sampleBuffer with entries := [sampleTrigger] }],
          b.WellFormed)
      ∧ (0 : Byte).val * 256 + (2 : Byte).val ≠ 0x0001
      ∧ ∃ st : State,
          mdat2root (fileBytes (List.replicate 58 0)
              [sampleBuffer, { sampleBuffer with entries := [sampleTrigger] }] [0, 0, 0, 2])
              ⟨0, 0, 0⟩ sampleStaleHeader = some st
            ∧ st.event = event0
            ∧ st.rawdata.map (fun r => (r.eventID, r.tubeID, r.trigID)) = [(0, 37, 0), (1, 0, 2)] := by
  refine ⟨by decide, by decide, by decide, ?_⟩
  obtain ⟨⟨st, h1, h2, _⟩, _⟩ :=
    mdat2root_variants (List.replicate 58 0)
      [sampleBuffer, { sampleBuffer with entries := [sampleTrigger] }] 0 0 0 2 [] ⟨0, 0, 0⟩
      sampleStaleHeader (by decide) (by decide) (by decide)
  refine ⟨st, h1, h2, ?_⟩
  have hc : (mdat2root (fileBytes (List.replicate 58 0)
      [sampleBuffer, { sampleBuffer with entries := [sampleTrigger] }] [0, 0, 0, 2])
      ⟨0, 0, 0⟩ sampleStaleHeader).map
        (fun s => s.rawdata.map (fun r => (r.eventID, r.tubeID, r.trigID)))
      = some [(0, 37, 0), (1, 0, 2)] := by decide
  rw [h1] at hc
  exact Option.some.inj hc

/-- C8: for every six bytes `b0..b5` read in that order, `ReadEntry` yields
`(b0*256 + b1) + 2^16 * (b2*256 + b3) + 2^32 * (b4*256 + b5)`: `ReadWord` delivers each
16-bit word with its first byte as the high byte, the three words are composed low,
mid, high, the cursor advances by exactly 6 bytes, and the result of `ReadEntry` is
below `2^48` on every stream. -/
theorem ReadEntry_six_bytes (b0 b1 b2 b3 b4 b5 : Byte) (rest : List Byte) (u : Uninit) :
    ReadEntry { bytes := b0 :: b1 :: b2 :: b3 :: b4 :: b5 :: rest, fail := false } u
        = ({ bytes := rest, fail := false },
            (b0.val * 256 + b1.val) + 2 ^ 16 * (b2.val * 256 + b3.val)
              + 2 ^ 32 * (b4.val * 256 + b5.val))
      ∧ (∀ w : Nat, ReadWord { bytes := b0 :: b1 :: b2 :: b3 :: b4 :: b5 :: rest, fail := false } w
          = ({ bytes := b2 :: b3 :: b4 :: b5 :: rest, fail := false }, b0.val * 256 + b1.val))
      ∧ (∀ w : Nat, ReadWord { bytes := b2 :: b3 :: b4 :: b5 :: rest, fail := false } w
          = ({ bytes := b4 :: b5 :: rest, fail := false }, b2.val * 256 + b3.val))
      ∧ (∀ w : Nat, ReadWord { bytes := b4 :: b5 :: rest, fail := false } w
          = ({ bytes := rest, fail := false }, b4.val * 256 + b5.val))
      ∧ (ReadEntry { bytes := b0 :: b1 :: b2 :: b3 :: b4 :: b5 :: rest, fail := false } u).1.bytes.length
          + 6 = (b0 :: b1 :: b2 :: b3 :: b4 :: b5 :: rest).length
      ∧ (∀ (s : IfStream) (v : Uninit), (ReadEntry s v).2 < 2 ^ 48) := by
  refine ⟨ReadEntry_cons b0 b1 b2 b3 b4 b5 rest u, fun w => ReadWord_cons _ _ _ w,
    fun w => ReadWord_cons _ _ _ w, fun w => ReadWord_cons _ _ _ w, ?_, ReadEntry_lt⟩
  rw [ReadEntry_cons]
  simp

/-- C9: for every accepted header (`ReadBuffer` returns 0) with `bufferLength = L ≥ 21`,
the pass through the loop body runs the event loop exactly `(L - 21) / 3` times
(integer division; 21 gives 0, 24 gives 1, 30 gives 3): so many records are added and
counted, and the loop goes on with the next pass.  In particular for `L` equal to 21, 22
or 23 no record is emitted, the stream is the one `ReadBufferEnd` leaves right after the
header (a 4-word trailer lying there is skipped), and processing continues with the
next header. -/
theorem bufferBody_entry_count (u : Uninit) (st : State)
    (hacc : (ReadBuffer st.infile u st.header).1 = 0)
    (hlen : 21 ≤ (ReadBuffer st.infile u st.header).2.2.bufferlength) :
    (bufferEntries (ReadBuffer st.infile u st.header).2.2).toNat
        = ((ReadBuffer st.infile u st.header).2.2.bufferlength - 21) / 3
      ∧ (bufferBody u st).1 = false
      ∧ (bufferBody u st).2.rawdata.length
          = st.rawdata.length + ((ReadBuffer st.infile u st.header).2.2.bufferlength - 21) / 3
      ∧ (bufferBody u st).2.entry_num
          = st.entry_num + ((ReadBuffer st.infile u st.header).2.2.bufferlength - 21) / 3
      ∧ (bufferBody u st).2.buffer_num = st.buffer_num + 1
      ∧ (∀ fuel : Nat, bufferLoop u (fuel + 1) st = bufferLoop u fuel (bufferBody u st).2)
      ∧ ((ReadBuffer st.infile u st.header).2.2.bufferlength ≤ 23 →
          (bufferBody u st).2.rawdata = st.rawdata
            ∧ (bufferBody u st).2.entry_num = st.entry_num
            ∧ (bufferBody u st).2.infile = ReadBufferEnd (ReadBuffer st.infile u st.header).2.1
            ∧ ∀ t rest : List Byte, t.length = 8 →
                (ReadBuffer st.infile u st.header).2.1 = { bytes := t ++ rest, fail := false } →
                (bufferBody u st).2.infile = { bytes := rest, fail := false })
      ∧ (∀ h : Header, h.bufferlength = 21 → bufferEntries h = 0)
      ∧ (∀ h : Header, h.bufferlength = 24 → bufferEntries h = 1)
      ∧ (∀ h : Header, h.bufferlength = 30 → bufferEntries h = 3) := by
  have hn := bufferEntries_toNat _ hlen
  have hb := bufferBody_of_accept u st hacc
  obtain ⟨l1, l2, _, l4⟩ := eventLoop_length u
    (bufferEntries (ReadBuffer st.infile u st.header).2.2).toNat
    { st with
      infile := (ReadBuffer st.infile u st.header).2.1
      header := (ReadBuffer st.infile u st.header).2.2
      buffer_num := st.buffer_num + 1 }
  refine ⟨hn, ?_, ?_, ?_, ?_, ?_, ?_, ?_, ?_, ?_⟩
  · rw [hb]
  · rw [hb]
    simp only
    rw [l1, hn]
  · rw [hb]
    simp only
    rw [l2, hn]
  · rw [hb]
    simp only
    rw [l4]
  · intro fuel
    conv_lhs => rw [bufferLoop]
    rw [hb]
  · intro hle
    have hz : (bufferEntries (ReadBuffer st.infile u st.header).2.2).toNat = 0 := by
      rw [hn]
      omega
    rw [hb, hz]
    simp only [eventLoop]
    refine ⟨trivial, trivial, trivial, ?_⟩
    intro t rest ht hs
    rw [hs, ReadBufferEnd_append t rest ht]
  · intro h hh
    unfold bufferEntries
    rw [hh]
    decide
  · intro h hh
    unfold bufferEntries
    rw [hh]
    decide
  · intro h hh
    unfold bufferEntries
    rw [hh]
    decide

theorem bufferBody_entry_count_witness :
    (ReadBuffer sampleEmptyState.infile ⟨0, 0, 0⟩ sampleEmptyState.header).1 = 0
      ∧ 21 ≤ (ReadBuffer sampleEmptyState.infile ⟨0, 0, 0⟩ sampleEmptyState.header).2.2.bufferlength
      ∧ (ReadBuffer sampleEmptyState.infile ⟨0, 0, 0⟩ sampleEmptyState.header).2.2.bufferlength = 22
      ∧ (bufferBody ⟨0, 0, 0⟩ sampleEmptyState).2.rawdata.length
          = sampleEmptyState.rawdata.length
            + ((ReadBuffer sampleEmptyState.infile ⟨0, 0, 0⟩
                sampleEmptyState.header).2.2.bufferlength - 21) / 3
      ∧ (bufferBody ⟨0, 0, 0⟩ sampleEmptyState).2.infile
          = { bytes := [0, 0, 0, 2], fail := false } :=
  ⟨by decide, by decide, by decide,
    (bufferBody_entry_count ⟨0, 0, 0⟩ sampleEmptyState (by decide) (by decide)).2.2.1,
    by decide⟩

/-- C10: for every good stream with at least 4 bytes left at a buffer boundary,
`ReadBuffer` returns 1 if and only if the second 16-bit word, first byte high, differs
from `0x0001` (and returns 0 otherwise); when it differs exactly 4 bytes are consumed,
and the loop of `mdat2root` is left at once: `buffer_num`, `entry_num` and the records
in `rawdata` are as they were. -/
theorem ReadBuffer_terminate (b0 b1 b2 b3 : Byte) (rest : List Byte) (u : Uninit)
    (header : Header) :
    ((ReadBuffer { bytes := b0 :: b1 :: b2 :: b3 :: rest, fail := false } u header).1 = 1
        ↔ b2.val * 256 + b3.val ≠ 0x0001)
      ∧ ((ReadBuffer { bytes := b0 :: b1 :: b2 :: b3 :: rest, fail := false } u header).1 = 0
        ↔ b2.val * 256 + b3.val = 0x0001)
      ∧ (b2.val * 256 + b3.val ≠ 0x0001 →
          (ReadBuffer { bytes := b0 :: b1 :: b2 :: b3 :: rest, fail := false } u header).2.1
              = { bytes := rest, fail := false }
            ∧ ∀ (st : State) (fuel : Nat),
                st.infile = { bytes := b0 :: b1 :: b2 :: b3 :: rest, fail := false } →
                st.header = header →
                bufferLoop u (fuel + 1) st = some
                  { st with
                    infile := { bytes := rest, fail := false }
                    header := { header with bufferlength := b0.val * 256 + b1.val,
                                            buffertype := b2.val * 256 + b3.val } }) := by
  have hacc : b2.val * 256 + b3.val = 0x0001 →
      (ReadBuffer { bytes := b0 :: b1 :: b2 :: b3 :: rest, fail := false } u header).1 = 0 := by
    intro h
    unfold ReadBuffer
    simp only [ReadWord_cons, h]
    rw [if_neg (by decide)]
  have hrej := ReadBuffer_reject b0 b1 b2 b3 rest u header
  refine ⟨⟨?_, ?_⟩, ⟨?_, hacc⟩, ?_⟩
  · intro h1 h
    rw [hacc h] at h1
    exact absurd h1 (by simp)
  · intro h
    rw [hrej h]
  · intro h0
    by_contra h
    rw [hrej h] at h0
    exact absurd h0 (by simp)
  · intro h
    refine ⟨by rw [hrej h], ?_⟩
    intro st fuel hin hhd
    obtain ⟨infile, header', event, rawdata, entry_num, buffer_num⟩ := st
    simp only at hin hhd
    subst hin hhd
    rw [bufferLoop]
    simp only [bufferBody, hrej h, if_true]

theorem ReadBuffer_terminate_witness :
    (0 : Byte).val * 256 + (2 : Byte).val ≠ 0x0001
      ∧ (ReadBuffer { bytes := [0, 0, 0, 2, 9], fail := false } ⟨0, 0, 0⟩ header0).2.1
          = { bytes := [9], fail := false } :=
  ⟨by decide,
    ((ReadBuffer_terminate 0 0 0 2 [9] ⟨0, 0, 0⟩ header0).2.2 (by decide)).1⟩

/-- C11, as stated, fails: on the sample stream the header decoder succeeds and reads a
fifth 48-bit value, `param3`, from the six bytes that follow `param2`; the first event
entry is the six bytes after those. -/
theorem ReadBuffer_param3_counterexample :
    (ReadBuffer { bytes := sampleStream, fail := false } ⟨0, 0, 0⟩ header0).1 = 0
      ∧ (ReadBuffer { bytes := sampleStream, fail := false } ⟨0, 0, 0⟩ header0).2.2.param2
          = entry48 sampleStream 30
      ∧ (ReadBuffer { bytes := sampleStream, fail := false } ⟨0, 0, 0⟩ header0).2.2.param3
          = entry48 sampleStream 36
      ∧ entry48 sampleStream 36 = 4
      ∧ (ReadEntry (ReadBuffer { bytes := sampleStream, fail := false } ⟨0, 0, 0⟩ header0).2.1
            ⟨0, 0, 0⟩).2 = entry48 sampleStream 42
      ∧ entry48 sampleStream 42 = 0x2284a000002a
      ∧ (ReadEntry (ReadBuffer { bytes := sampleStream, fail := false } ⟨0, 0, 0⟩ header0).2.1
            ⟨0, 0, 0⟩).2 ≠ entry48 sampleStream 36 := by
  decide

/-- C11, amended: on the success path (a good stream with 42 bytes or more whose second
word is `0x0001`) `ReadBuffer` reads, in this order, `bufferlength`, `buffertype`,
`headerlength`, `buffernumber` and `runID` as 16-bit words with the first byte high
(offsets 0, 2, 4, 6, 8), then `mcpdID` and `status` as single bytes (offsets 10, 11),
then exactly five 48-bit values, `headerTS`, `param0`, `param1`, `param2` and `param3`
(offsets 12, 18, 24, 30, 36); the first event entry of the buffer is the six bytes
that follow `param3` (offset 42). -/
theorem ReadBuffer_layout (bs : List Byte) (u : Uninit) (header : Header)
    (hlen : 42 ≤ bs.length) (htype : word16 bs 2 = 0x0001) :
    ReadBuffer { bytes := bs, fail := false } u header
        = (0, { bytes := bs.drop 42, fail := false },
            { bufferlength := word16 bs 0, buffertype := word16 bs 2,
              headerlength := word16 bs 4, buffernumber := word16 bs 6,
              runID := word16 bs 8, mcpdID := bs.getD 10 0, status := bs.getD 11 0,
              headerTS := entry48 bs 12, param0 := entry48 bs 18, param1 := entry48 bs 24,
              param2 := entry48 bs 30, param3 := entry48 bs 36 })
      ∧ (48 ≤ bs.length →
          ReadEntry (ReadBuffer { bytes := bs, fail := false } u header).2.1 u
            = ({ bytes := bs.drop 48, fail := false }, entry48 bs 42)) := by
  have h := ReadBuffer_accept bs u header hlen htype
  refine ⟨h, ?_⟩
  intro h48
  rw [h]
  exact ReadEntry_drop bs 42 u h48

theorem ReadBuffer_layout_witness :
    42 ≤ sampleStream.length
      ∧ word16 sampleStream 2 = 0x0001
      ∧ (ReadBuffer { bytes := sampleStream, fail := false } ⟨0, 0, 0⟩ header0).2.2.param3 = 4 :=
  ⟨by decide, by decide,
    (congrArg (fun r => r.2.2.param3)
      (ReadBuffer_layout sampleStream ⟨0, 0, 0⟩ header0 (by decide) (by decide)).1).trans
      (by decide)⟩

/-- C12, as stated, fails: on the sample stream of 56 bytes the header decoder succeeds
and leaves 14 bytes, not the 27 that would remain after 29. -/
theorem ReadBuffer_29_counterexample :
    sampleStream.length = 56
      ∧ (ReadBuffer { bytes := sampleStream, fail := false } ⟨0, 0, 0⟩ header0).1 = 0
      ∧ (ReadBuffer { bytes := sampleStream, fail := false } ⟨0, 0, 0⟩ header0).2.1
          = { bytes := sampleStream.drop 42, fail := false }
      ∧ (ReadBuffer { bytes := sampleStream, fail := false } ⟨0, 0, 0⟩ header0).2.1.bytes.length
          = 14
      ∧ (ReadBuffer { bytes := sampleStream, fail := false } ⟨0, 0, 0⟩ header0).2.1.bytes.length
          + 29 ≠ sampleStream.length := by
  decide

/-- C12, amended: for every stream on which the header decoder succeeds (`ReadBuffer`
returns 0 and the stream is still good after it), it consumes exactly 42 bytes before
the first event entry; with 42 bytes or more present and the second word `0x0001`
this is the case, and the stream is left at offset 42. -/
theorem ReadBuffer_42_bytes (s : IfStream) (u : Uninit) (header : Header)
    (hacc : (ReadBuffer s u header).1 = 0)
    (hgood : (ReadBuffer s u header).2.1.fail = false) :
    s.fail = false
      ∧ (ReadBuffer s u header).2.1.bytes.length + 42 = s.bytes.length
      ∧ (ReadBuffer s u header).2.1.bytes = s.bytes.drop 42
      ∧ word16 s.bytes 2 = 0x0001 := by
  obtain ⟨hf, hl⟩ := ReadBuffer_consumes s u header hacc hgood
  obtain ⟨bytes, fail⟩ := s
  simp only at hf hl ⊢
  subst hf
  have hlen : 42 ≤ bytes.length := by omega
  have ht : word16 bytes 2 = 0x0001 := by
    have h2 := (ReadBuffer_accept_type _ u header hacc).1
    have h0 : ({ bytes := bytes, fail := false } : IfStream)
        = { bytes := bytes.drop 0, fail := false } := by simp
    rw [h0, ReadWord_drop bytes 0 _ (by omega), ReadWord_drop bytes 2 _ (by omega)] at h2
    exact h2
  rw [ReadBuffer_accept bytes u header hlen ht]
  simp only [List.length_drop]
  exact ⟨trivial, by omega, trivial, ht⟩

theorem ReadBuffer_42_bytes_witness :
    (ReadBuffer { bytes := sampleStream, fail := false } ⟨0, 0, 0⟩ header0).1 = 0
      ∧ (ReadBuffer { bytes := sampleStream, fail := false } ⟨0, 0, 0⟩ header0).2.1.fail = false
      ∧ (ReadBuffer { bytes := sampleStream, fail := false } ⟨0, 0, 0⟩ header0).2.1.bytes.length
          + 42 = ({ bytes := sampleStream, fail := false } : IfStream).bytes.length :=
  ⟨by decide, by decide,
    (ReadBuffer_42_bytes { bytes := sampleStream, fail := false } ⟨0, 0, 0⟩ header0
      (by decide) (by decide)).2.1⟩

/-- C13, as stated, fails: for the input that ends after 10 bytes of a header with
`bufferType = 0x0001` and `bufferLength = 24`, no error is reported: `ReadBuffer`
returns 0 with a header, the buffer is counted, one record is emitted although the
input holds no entry, and the run is left through the usual `break`. -/
theorem mdat2root_cut_counterexample :
    (sampleHdr.take 10).length = 10
      ∧ (ReadBuffer { bytes := sampleHdr.take 10, fail := false } ⟨0, 0, 0⟩ header0).1 = 0
      ∧ (ReadBuffer { bytes := sampleHdr.take 10, fail := false } ⟨0, 0, 0⟩
          header0).2.2.bufferlength = 24
      ∧ (mdat2root (fileBytes (List.replicate 58 0) [] (sampleHdr.take 10)) ⟨0, 0, 0⟩
          header0).map
          (fun st => (st.buffer_num, st.entry_num, st.rawdata.length, st.infile))
          = some (1, 1, 1, { bytes := [], fail := true }) := by
  decide

/-- C13, amended: for every input that ends before a buffer is complete, four bytes or
more into it (inside the header after a valid `bufferType`, inside an event entry, or
inside the trailer), no error is reported: `ReadBuffer` returns 0 for the cut buffer,
the buffer is counted, the event loop emits all `(L - 21) / 3` records of its
`bufferLength` after the records of the complete buffers, the stream ends up failed,
and the run is left through the `break` of the next `ReadBuffer`, as on a complete
input; this whatever the global `header` holds on entry. -/
theorem mdat2root_truncated (prologue : List Byte) (bufs : List RawBuffer) (b : RawBuffer)
    (k : Nat) (u : Uninit) (header : Header) (hp : prologue.length = 58)
    (hwf : ∀ x ∈ bufs, x.WellFormed)
    (hb : b.WellFormed) (hk4 : 4 ≤ k) (hk : k < b.bytes.length) :
    ∃ (st : State) (extra : List Record),
      mdat2root (fileBytes prologue bufs (b.bytes.take k)) u header = some st
        ∧ (∀ h : Header, (ReadBuffer { bytes := b.bytes.take k, fail := false } u h).1 = 0)
        ∧ st.buffer_num = bufs.length + 1
        ∧ st.entry_num
            = (bufs.map fun x => (x.bufferLength - 21) / 3).sum + (b.bufferLength - 21) / 3
        ∧ st.rawdata = (bufs.map (RawBuffer.records u)).flatten ++ extra
        ∧ extra.length = (b.bufferLength - 21) / 3
        ∧ st.infile.fail = true := by
  obtain ⟨c0, c1, c2, c3, rest, hshape, hbl, hty, hrest⟩ := RawBuffer.take_shape b k hb hk4
  have hlen := RawBuffer.bytes_length b hb
  have hfl := flatten_bytes_length bufs hwf
  have hfile : (fileBytes prologue bufs (b.bytes.take k)).length + 2
      = bufs.length
        + (((fileBytes prologue bufs (b.bytes.take k)).length - bufs.length) + 2) := by
    simp only [fileBytes, List.length_append]
    omega
  obtain ⟨h, hpre⟩ := bufferLoop_prefix u bufs (b.bytes.take k) hwf
    (((fileBytes prologue bufs (b.bytes.take k)).length - bufs.length) + 2)
    (initState (fileBytes prologue bufs (b.bytes.take k)) header)
    (by rw [fileBytes, initState_prologue prologue _ header hp])
    (by rw [fileBytes, initState_prologue prologue _ header hp])
  obtain ⟨st1, extra, hrun, g1, g2, g3, g4, g5⟩ := bufferLoop_cut u
    ((fileBytes prologue bufs (b.bytes.take k)).length - bufs.length)
    { infile := { bytes := b.bytes.take k, fail := false }
      header := h
      event := event0
      rawdata := (initState (fileBytes prologue bufs (b.bytes.take k)) header).rawdata
        ++ (bufs.map (RawBuffer.records u)).flatten
      entry_num := (initState (fileBytes prologue bufs (b.bytes.take k)) header).entry_num
        + (bufs.map fun x => (x.bufferLength - 21) / 3).sum
      buffer_num := (initState (fileBytes prologue bufs (b.bytes.take k)) header).buffer_num
        + bufs.length }
    c0 c1 c2 c3 rest (by rw [hshape]) hty (by rw [hbl]; exact hb.2.2.1)
    (by rw [hbl]; omega)
  refine ⟨st1, extra, ?_, ?_, ?_, ?_, ?_, ?_, g5⟩
  · unfold mdat2root
    rw [hfile, hpre, hrun]
  · intro h'
    rw [hshape]
    exact (ReadBuffer_four_accept c0 c1 c2 c3 rest u h' hty).1
  · rw [g1]
    simp [initState]
  · rw [g2, hbl]
    simp [initState]
  · rw [g3]
    simp [initState]
  · rw [g4, hbl]

theorem mdat2root_truncated_witness :
    (List.replicate 58 (0 : Byte)).length = 58
      ∧ (∀ x ∈ [sampleBuffer], x.WellFormed)
      ∧ sampleBuffer.WellFormed
      ∧ 4 ≤ 45
      ∧ 45 < sampleBuffer.bytes.length
      ∧ ∃ (st : State) (extra : List Record),
          mdat2root (fileBytes (List.replicate 58 0) [sampleBuffer] (sampleBuffer.bytes.take 45))
              ⟨0, 0, 0⟩ header0 = some st
            ∧ st.buffer_num = 2
            ∧ st.rawdata = (RawBuffer.records ⟨0, 0, 0⟩ sampleBuffer) ++ extra
            ∧ extra.length = 1 := by
  refine ⟨by decide, by decide, by decide, by decide, by decide, ?_⟩
  obtain ⟨st, extra, h1, _, h3, _, h5, h6, _⟩ :=
    mdat2root_truncated (List.replicate 58 0) [sampleBuffer] sampleBuffer 45 ⟨0, 0, 0⟩
      header0 (by decide) (by decide) (by decide) (by decide) (by decide)
  refine ⟨st, extra, h1, h3, ?_, ?_⟩
  · rw [h5]
    simp
  · rw [h6]
    decide

/-- C14, as stated, fails: for the accepted header with `bufferLength = 5` nothing is
aborted; the entry count is `-5`, the pass stays in the loop, counts the buffer, skips
the trailer, and the run goes on to the next header and ends there as usual. -/
theorem bufferBody_short_counterexample :
    (ReadBuffer sampleShortState.infile ⟨0, 0, 0⟩ sampleShortState.header).1 = 0
      ∧ (ReadBuffer sampleShortState.infile ⟨0, 0, 0⟩ sampleShortState.header).2.2.bufferlength
          = 5
      ∧ bufferEntries (ReadBuffer sampleShortState.infile ⟨0, 0, 0⟩ sampleShortState.header).2.2
          = -5
      ∧ (bufferBody ⟨0, 0, 0⟩ sampleShortState).1 = false
      ∧ (bufferBody ⟨0, 0, 0⟩ sampleShortState).2.buffer_num = 1
      ∧ (bufferBody ⟨0, 0, 0⟩ sampleShortState).2.infile
          = { bytes := [0, 0, 0, 2], fail := false }
      ∧ (bufferLoop ⟨0, 0, 0⟩ 2 sampleShortState).map
          (fun st => (st.buffer_num, st.entry_num, st.rawdata, st.infile))
          = some (1, 0, [], { bytes := [], fail := false }) := by
  decide

/-- C14, amended: for every accepted header (`ReadBuffer` returns 0) whose
`bufferLength = L` is below 21 no error is reported: the entry count of line 258 is
`-((21 - L) / 3)`, not positive, the event loop runs zero times, so no record is emitted
and `entry_num` stays, the buffer is counted, the trailer skip `ReadBufferEnd` follows
right after the header, and the loop goes on with the next pass. -/
theorem bufferBody_short_length (u : Uninit) (st : State)
    (hacc : (ReadBuffer st.infile u st.header).1 = 0)
    (hlen : (ReadBuffer st.infile u st.header).2.2.bufferlength < 21) :
    bufferEntries (ReadBuffer st.infile u st.header).2.2
        = -(((21 - (ReadBuffer st.infile u st.header).2.2.bufferlength) / 3 : Nat) : Int)
      ∧ bufferEntries (ReadBuffer st.infile u st.header).2.2 ≤ 0
      ∧ (bufferBody u st).1 = false
      ∧ (bufferBody u st).2.rawdata = st.rawdata
      ∧ (bufferBody u st).2.entry_num = st.entry_num
      ∧ (bufferBody u st).2.buffer_num = st.buffer_num + 1
      ∧ (bufferBody u st).2.header = (ReadBuffer st.infile u st.header).2.2
      ∧ (bufferBody u st).2.infile = ReadBufferEnd (ReadBuffer st.infile u st.header).2.1
      ∧ (∀ fuel : Nat, bufferLoop u (fuel + 1) st = bufferLoop u fuel (bufferBody u st).2) := by
  obtain ⟨h1, h2, h3⟩ := bufferEntries_small _ hlen
  have hb := bufferBody_of_accept u st hacc
  rw [h3] at hb
  simp only [eventLoop] at hb
  refine ⟨h1, h2, ?_, ?_, ?_, ?_, ?_, ?_, ?_⟩
  · rw [hb]
  · rw [hb]
  · rw [hb]
  · rw [hb]
  · rw [hb]
  · rw [hb]
  · intro fuel
    conv_lhs => rw [bufferLoop]
    rw [hb]

theorem bufferBody_short_length_witness :
    (ReadBuffer sampleShortState.infile ⟨0, 0, 0⟩ sampleShortState.header).1 = 0
      ∧ (ReadBuffer sampleShortState.infile ⟨0, 0, 0⟩ sampleShortState.header).2.2.bufferlength
          < 21
      ∧ (bufferBody ⟨0, 0, 0⟩ sampleShortState).2.rawdata = sampleShortState.rawdata :=
  ⟨by decide, by decide,
    (bufferBody_short_length ⟨0, 0, 0⟩ sampleShortState (by decide) (by decide)).2.2.2.1⟩

/-- C15: the header that `ReadBuffer` consumes on success is exactly 21 sixteen-bit
words (42 bytes), the 21 that the entry count of line 258 subtracts.  Hence for every
accepted buffer with `bufferLength = L ≥ 21`, `L - 21` divisible by 3 and its `2*L + 8`
bytes present, header plus entries consume exactly `L` words (`2*L` bytes), and the
pass, trailer included, consumes exactly `2*L + 8` bytes: the stream is left on the
first byte of the next header. -/
theorem bufferBody_consumes_words (u : Uninit) (st : State) (bs : List Byte)
    (hin : st.infile = { bytes := bs, fail := false }) (htype : word16 bs 2 = 0x0001)
    (hL : 21 ≤ word16 bs 0) (hdiv : 3 ∣ word16 bs 0 - 21)
    (hlen : 2 * word16 bs 0 + 8 ≤ bs.length) :
    (ReadBuffer st.infile u st.header).1 = 0
      ∧ (ReadBuffer st.infile u st.header).2.1 = { bytes := bs.drop (2 * 21), fail := false }
      ∧ (ReadBuffer st.infile u st.header).2.2.bufferlength = word16 bs 0
      ∧ (bufferEntries (ReadBuffer st.infile u st.header).2.2).toNat = (word16 bs 0 - 21) / 3
      ∧ 2 * 21 + 6 * ((word16 bs 0 - 21) / 3) = 2 * word16 bs 0
      ∧ (∀ st1 : State, st1.infile = { bytes := bs.drop (2 * 21), fail := false } →
          (eventLoop u ((word16 bs 0 - 21) / 3) st1).infile
            = { bytes := bs.drop (2 * word16 bs 0), fail := false })
      ∧ (bufferBody u st).1 = false
      ∧ (bufferBody u st).2.infile = { bytes := bs.drop (2 * word16 bs 0 + 8), fail := false }
      ∧ (bufferBody u st).2.infile.bytes.length + (2 * word16 bs 0 + 8) = bs.length := by
  have h42 : 42 ≤ bs.length := by omega
  have hrb := ReadBuffer_accept bs u st.header h42 htype
  rw [← hin] at hrb
  have hacc : (ReadBuffer st.infile u st.header).1 = 0 := by rw [hrb]
  have hbl : (ReadBuffer st.infile u st.header).2.2.bufferlength = word16 bs 0 := by
    rw [hrb]
    rfl
  have hn : (bufferEntries (ReadBuffer st.infile u st.header).2.2).toNat
      = (word16 bs 0 - 21) / 3 := by
    rw [bufferEntries_toNat _ (by rw [hbl]; exact hL), hbl]
  have hsum : 2 * 21 + 6 * ((word16 bs 0 - 21) / 3) = 2 * word16 bs 0 := by
    obtain ⟨q, hq⟩ := hdiv
    omega
  have hloop : ∀ st1 : State, st1.infile = { bytes := bs.drop (2 * 21), fail := false } →
      (eventLoop u ((word16 bs 0 - 21) / 3) st1).infile
        = { bytes := bs.drop (2 * word16 bs 0), fail := false } := by
    intro st1 h1
    have := eventLoop_drop u bs ((word16 bs 0 - 21) / 3) (2 * 21) st1 h1 (by omega)
    rw [hsum] at this
    exact this
  have hbody : (bufferBody u st).2.infile
      = { bytes := bs.drop (2 * word16 bs 0 + 8), fail := false } := by
    rw [bufferBody_of_accept u st hacc, hn]
    simp only
    rw [hloop _ (by rw [hrb]), ReadBufferEnd_drop bs _ hlen]
  refine ⟨hacc, by rw [hrb], hbl, hn, hsum, hloop, (bufferBody_flag u st).2 hacc, hbody, ?_⟩
  rw [hbody]
  simp only [List.length_drop]
  omega

theorem bufferBody_consumes_words_witness :
    sampleStreamState.infile
        = { bytes := sampleStream ++ [0, 0, 0, 2], fail := false }
      ∧ word16 (sampleStream ++ [0, 0, 0, 2]) 2 = 0x0001
      ∧ 21 ≤ word16 (sampleStream ++ [0, 0, 0, 2]) 0
      ∧ 3 ∣ word16 (sampleStream ++ [0, 0, 0, 2]) 0 - 21
      ∧ 2 * word16 (sampleStream ++ [0, 0, 0, 2]) 0 + 8 ≤ (sampleStream ++ [0, 0, 0, 2]).length
      ∧ (bufferBody ⟨0, 0, 0⟩ sampleStreamState).2.infile
          = { bytes := (sampleStream ++ [0, 0, 0, 2]).drop
                (2 * word16 (sampleStream ++ [0, 0, 0, 2]) 0 + 8),
              fail := false } :=
  ⟨by decide, by decide, by decide, by decide, by decide,
    (bufferBody_consumes_words ⟨0, 0, 0⟩ sampleStreamState (sampleStream ++ [0, 0, 0, 2])
      (by decide) (by decide) (by decide) (by decide) (by decide)).2.2.2.2.2.2.2.1⟩

/-- C16: the code at the failing input.  Under `mcpdID = 2` the detector entry with
`modID = 4`, `slotID = 0` gets `tubeID = 64`, while the formula of the comment on line
142, `(mcpdID - 1)*64 + modID*16 + slotID`, gives 128: bit 6 of `modID << 4` falls on
bit 0 of `(mcpdID - 1) << 6` and the `|` of line 143 does not add them. -/
theorem tubeID_overlap :
    (ReadEntry { bytes := sampleMod4, fail := false } ⟨0, 0, 0⟩).2.testBit 47 = false
      ∧ (ReadEvent { bytes := sampleMod4, fail := false } ⟨0, 0, 0⟩
          { header0 with mcpdID := 2 } event0).2.modID = 4
      ∧ (ReadEvent { bytes := sampleMod4, fail := false } ⟨0, 0, 0⟩
          { header0 with mcpdID := 2 } event0).2.slotID = 0
      ∧ (ReadEvent { bytes := sampleMod4, fail := false } ⟨0, 0, 0⟩
          { header0 with mcpdID := 2 } event0).2.tubeID = 64
      ∧ (({ header0 with mcpdID := 2 } : Header).mcpdID.val - 1) * 64
          + (ReadEvent { bytes := sampleMod4, fail := false } ⟨0, 0, 0⟩
              { header0 with mcpdID := 2 } event0).2.modID * 16
          + (ReadEvent { bytes := sampleMod4, fail := false } ⟨0, 0, 0⟩
              { header0 with mcpdID := 2 } event0).2.slotID = 128 := by
  decide

/-- C17: for every detector event decoded under a header with `mcpdID = 0`, the `int`
value of `mcpdID - 1` is `-1` (pattern `4294967295`), and the stored `tubeID` is the
16-bit wrap of `((-1) << 6) | (modID << 4) | slotID`, which is
`65472 + 16 * (modID mod 4) + slotID`: at least 65472, and the same for `modID` and
`modID + 4`, the top bit of `modID` being lost. -/
theorem ReadEvent_tubeID_underflow (infile : IfStream) (u : Uninit) (header : Header)
    (event : Event) (raw : Nat) (hraw : (ReadEntry infile u).2 = raw)
    (h47 : raw.testBit 47 = false) (hm : header.mcpdID.val = 0) :
    (header.mcpdID.val + 4294967295) % 4294967296 = 4294967295
      ∧ (ReadEvent infile u header event).2.modID = raw / 2 ^ 44 % 2 ^ 3
      ∧ (ReadEvent infile u header event).2.slotID = raw / 2 ^ 39 % 2 ^ 4
      ∧ (ReadEvent infile u header event).2.tubeID
          = ((((4294967295 <<< 6) % 4294967296)
                ||| (((ReadEvent infile u header event).2.modID <<< 4) % 4294967296))
              ||| (ReadEvent infile u header event).2.slotID) % 65536
      ∧ (ReadEvent infile u header event).2.tubeID
          = 65472 + 16 * ((ReadEvent infile u header event).2.modID % 4)
            + (ReadEvent infile u header event).2.slotID
      ∧ 65472 ≤ (ReadEvent infile u header event).2.tubeID
      ∧ (ReadEvent infile u header event).2.tubeID < 65536 := by
  subst hraw
  have h0 : header.mcpdID = 0 := Fin.ext hm
  rw [ReadEvent_detector infile u header event h47, h0]
  simp only
  have hmod : (ReadEntry infile u).2 / 2 ^ 44 % 8 < 8 := by omega
  have hslot : (ReadEntry infile u).2 / 2 ^ 39 % 16 < 16 := by omega
  have hz := tubeExpr_zero _ _ hmod hslot
  refine ⟨by decide, rfl, rfl, rfl, hz, ?_, ?_⟩
  · rw [hz]
    omega
  · rw [hz]
    omega

theorem ReadEvent_tubeID_underflow_witness :
    (ReadEntry { bytes := sampleMod4, fail := false } ⟨0, 0, 0⟩).2 = 0x400000000000
      ∧ (0x400000000000 : Nat).testBit 47 = false
      ∧ header0.mcpdID.val = 0
      ∧ (ReadEvent { bytes := sampleMod4, fail := false } ⟨0, 0, 0⟩ header0 event0).2.tubeID
          = 65472 :=
  ⟨by decide, by decide, by decide,
    ((ReadEvent_tubeID_underflow { bytes := sampleMod4, fail := false } ⟨0, 0, 0⟩ header0
      event0 0x400000000000 (by decide) (by decide) (by decide)).2.2.2.2.1).trans
      (by decide)⟩

/-- C18, as stated, fails: the detector events `(mcpdID, modID, slotID) = (1, 4, 0)` and
`(2, 0, 0)` differ in their triples and get the same `tubeID`, 64. -/
theorem tubeID_collision_counterexample :
    (ReadEntry { bytes := sampleMod4, fail := false } ⟨0, 0, 0⟩).2.testBit 47 = false
      ∧ (ReadEntry { bytes := sampleMod0, fail := false } ⟨0, 0, 0⟩).2.testBit 47 = false
      ∧ (ReadEvent { bytes := sampleMod4, fail := false } ⟨0, 0, 0⟩
          { header0 with mcpdID := 1 } event0).2.modID = 4
      ∧ (ReadEvent { bytes := sampleMod4, fail := false } ⟨0, 0, 0⟩
          { header0 with mcpdID := 1 } event0).2.slotID = 0
      ∧ (ReadEvent { bytes := sampleMod0, fail := false } ⟨0, 0, 0⟩
          { header0 with mcpdID := 2 } event0).2.modID = 0
      ∧ (ReadEvent { bytes := sampleMod0, fail := false } ⟨0, 0, 0⟩
          { header0 with mcpdID := 2 } event0).2.slotID = 0
      ∧ (ReadEvent { bytes := sampleMod4, fail := false } ⟨0, 0, 0⟩
          { header0 with mcpdID := 1 } event0).2.tubeID = 64
      ∧ (ReadEvent { bytes := sampleMod0, fail := false } ⟨0, 0, 0⟩
          { header0 with mcpdID := 2 } event0).2.tubeID = 64 := by
  decide

/-- C18, amended: for any two detector events decoded under headers with `mcpdID ≥ 1`,
with `modID` in `[0,3]` and `slotID` in `[0,15]`, if their triples
`(mcpdID, modID, slotID)` differ then their `tubeID`s differ; in that range the stored
`tubeID` is `(mcpdID - 1)*64 + modID*16 + slotID`. -/
theorem tubeID_injective (s1 s2 : IfStream) (u1 u2 : Uninit) (h1 h2 : Header)
    (e1 e2 : Event)
    (b1 : (ReadEntry s1 u1).2.testBit 47 = false)
    (b2 : (ReadEntry s2 u2).2.testBit 47 = false)
    (m1 : 1 ≤ h1.mcpdID.val) (m2 : 1 ≤ h2.mcpdID.val)
    (d1 : (ReadEvent s1 u1 h1 e1).2.modID ≤ 3) (d2 : (ReadEvent s2 u2 h2 e2).2.modID ≤ 3)
    (hne : (h1.mcpdID, (ReadEvent s1 u1 h1 e1).2.modID, (ReadEvent s1 u1 h1 e1).2.slotID)
      ≠ (h2.mcpdID, (ReadEvent s2 u2 h2 e2).2.modID, (ReadEvent s2 u2 h2 e2).2.slotID)) :
    (ReadEvent s1 u1 h1 e1).2.tubeID ≠ (ReadEvent s2 u2 h2 e2).2.tubeID
      ∧ (ReadEvent s1 u1 h1 e1).2.tubeID
          = (h1.mcpdID.val - 1) * 64 + (ReadEvent s1 u1 h1 e1).2.modID * 16
            + (ReadEvent s1 u1 h1 e1).2.slotID
      ∧ (ReadEvent s1 u1 h1 e1).2.slotID ≤ 15 := by
  rw [ReadEvent_detector s1 u1 h1 e1 b1] at d1 hne ⊢
  rw [ReadEvent_detector s2 u2 h2 e2 b2] at d2 hne ⊢
  simp only at d1 d2 hne ⊢
  have hs1 : (ReadEntry s1 u1).2 / 2 ^ 39 % 16 ≤ 15 := by omega
  have hs2 : (ReadEntry s2 u2).2 / 2 ^ 39 % 16 ≤ 15 := by omega
  rw [tubeExpr_arith h1.mcpdID _ _ m1 d1 hs1, tubeExpr_arith h2.mcpdID _ _ m2 d2 hs2]
  refine ⟨?_, rfl, hs1⟩
  intro heq
  apply hne
  have hb1 := h1.mcpdID.isLt
  have hb2 := h2.mcpdID.isLt
  have hm : h1.mcpdID.val = h2.mcpdID.val := by omega
  have hd : (ReadEntry s1 u1).2 / 2 ^ 44 % 8 = (ReadEntry s2 u2).2 / 2 ^ 44 % 8 := by omega
  have hs : (ReadEntry s1 u1).2 / 2 ^ 39 % 16 = (ReadEntry s2 u2).2 / 2 ^ 39 % 16 := by omega
  rw [Fin.ext hm, hd, hs]

theorem tubeID_injective_witness :
    (ReadEntry { bytes := sampleEntry, fail := false } ⟨0, 0, 0⟩).2.testBit 47 = false
      ∧ (ReadEntry { bytes := sampleMod0, fail := false } ⟨0, 0, 0⟩).2.testBit 47 = false
      ∧ (ReadEvent { bytes := sampleEntry, fail := false } ⟨0, 0, 0⟩
          { header0 with mcpdID := 1 } event0).2.modID ≤ 3
      ∧ (ReadEvent { bytes := sampleMod0, fail := false } ⟨0, 0, 0⟩
          { header0 with mcpdID := 2 } event0).2.modID ≤ 3
      ∧ (ReadEvent { bytes := sampleEntry, fail := false } ⟨0, 0, 0⟩
          { header0 with mcpdID := 1 } event0).2.tubeID
        ≠ (ReadEvent { bytes := sampleMod0, fail := false } ⟨0, 0, 0⟩
          { header0 with mcpdID := 2 } event0).2.tubeID :=
  ⟨by decide, by decide, by decide, by decide,
    (tubeID_injective { bytes := sampleEntry, fail := false }
      { bytes := sampleMod0, fail := false } ⟨0, 0, 0⟩ ⟨0, 0, 0⟩
      { header0 with mcpdID := 1 } { header0 with mcpdID := 2 } event0 event0
      (by decide) (by decide) (by decide) (by decide) (by decide) (by decide)
      (by decide)).1⟩

/-- C19: trigger decoding loses no information: for every raw entry delivered by
`ReadEntry` with bit 47 set, the entry is
`2^47 + trigID * 2^44 + dataID * 2^40 + tData * 2^19 + eventTS` of the decoded event, so
two trigger entries that decode to the same `(trigID, dataID, tData, eventTS)` are the
same entry. -/
theorem ReadEvent_trigger_recover (s1 s2 : IfStream) (u1 u2 : Uninit) (h1 h2 : Header)
    (e1 e2 : Event) (raw1 raw2 : Nat)
    (r1 : (ReadEntry s1 u1).2 = raw1) (r2 : (ReadEntry s2 u2).2 = raw2)
    (b1 : raw1.testBit 47 = true) (b2 : raw2.testBit 47 = true) :
    raw1 = 2 ^ 47 + (ReadEvent s1 u1 h1 e1).2.trigID * 2 ^ 44
        + (ReadEvent s1 u1 h1 e1).2.dataID * 2 ^ 40
        + (ReadEvent s1 u1 h1 e1).2.tData * 2 ^ 19 + (ReadEvent s1 u1 h1 e1).2.eventTS
      ∧ ((ReadEvent s1 u1 h1 e1).2.trigID = (ReadEvent s2 u2 h2 e2).2.trigID
          ∧ (ReadEvent s1 u1 h1 e1).2.dataID = (ReadEvent s2 u2 h2 e2).2.dataID
          ∧ (ReadEvent s1 u1 h1 e1).2.tData = (ReadEvent s2 u2 h2 e2).2.tData
          ∧ (ReadEvent s1 u1 h1 e1).2.eventTS = (ReadEvent s2 u2 h2 e2).2.eventTS
          → raw1 = raw2) := by
  subst r1 r2
  have l1 := ReadEntry_lt s1 u1
  have l2 := ReadEntry_lt s2 u2
  have t1 := testBit47_true b1
  have t2 := testBit47_true b2
  rw [ReadEvent_trigger s1 u1 h1 e1 b1, ReadEvent_trigger s2 u2 h2 e2 b2]
  simp only
  constructor
  · omega
  · rintro ⟨a, b, c, d⟩
    omega

theorem ReadEvent_trigger_recover_witness :
    (ReadEntry { bytes := sampleTrigger, fail := false } ⟨0, 0, 0⟩).2 = 0xa284a000002a
      ∧ (0xa284a000002a : Nat).testBit 47 = true
      ∧ 0xa284a000002a
          = 2 ^ 47
            + (ReadEvent { bytes := sampleTrigger, fail := false } ⟨0, 0, 0⟩ header0
                event0).2.trigID * 2 ^ 44
            + (ReadEvent { bytes := sampleTrigger, fail := false } ⟨0, 0, 0⟩ header0
                event0).2.dataID * 2 ^ 40
            + (ReadEvent { bytes := sampleTrigger, fail := false } ⟨0, 0, 0⟩ header0
                event0).2.tData * 2 ^ 19
            + (ReadEvent { bytes := sampleTrigger, fail := false } ⟨0, 0, 0⟩ header0
                event0).2.eventTS :=
  ⟨by decide, by decide,
    (ReadEvent_trigger_recover { bytes := sampleTrigger, fail := false }
      { bytes := sampleTrigger, fail := false } ⟨0, 0, 0⟩ ⟨0, 0, 0⟩ header0 header0 event0
      event0 0xa284a000002a 0xa284a000002a (by decide) (by decide) (by decide)
      (by decide)).1⟩

/-- C20, as stated, fails.  A run on a file that ends right after its one buffer leaves
`buffertype = 0x0100` in the global `header`.  A second run, on an empty file, starts
from that header: the stream is exhausted from the first read on, yet `ReadBuffer`
returns 0, the pass stays in the loop with no byte read, a buffer is counted and a row
is emitted. -/
theorem stale_header_counterexample :
    (mdat2root (fileBytes (List.replicate 58 0) [sampleBuffer] []) ⟨0, 0, 0⟩ header0).map
        (fun st => st.header) = some sampleStaleHeader
      ∧ sampleStaleHeader.buffertype = 0x0100
      ∧ (initState [] sampleStaleHeader).infile = { bytes := [], fail := true }
      ∧ (ReadBuffer (initState [] sampleStaleHeader).infile ⟨0, 0, 0⟩ sampleStaleHeader).1 = 0
      ∧ (bufferBody ⟨0, 0, 0⟩ (initState [] sampleStaleHeader)).1 = false
      ∧ (initState [] sampleStaleHeader).infile.bytes.length < 4
      ∧ (mdat2root [] ⟨0, 0, 0⟩ sampleStaleHeader).map
          (fun st => (st.buffer_num, st.entry_num, st.rawdata.length)) = some (1, 1, 1) := by
  decide

/-- C20, amended: for every finite input (empty, complete, or cut off at any byte) and
whatever the global `header` holds on entry, the buffer loop of `mdat2root` is left
after at most `file.length + 2` passes (`file.length + 1` when `buffertype` holds 0 or
1 on entry); no buffer decodes more than `(65535 - 21) / 3` events; every pass that
stays in the loop gives nothing back to the stream and leaves `buffertype = 0x0001`.
When `buffertype` holds 0 or 1 before a pass (0 on the first call after load, 1 after
every pass that stayed in the loop), a pass that stays in the loop has read, from a
good stream with four bytes or more, a second word equal to `0x0001`, and leaves at
least four bytes fewer to read; and on a stream that has failed or holds fewer than
four bytes `ReadBuffer` returns 1, because `ByteSwap16` turns neither 0 or 1 nor that
value with its low byte replaced into `0x0001`. -/
theorem mdat2root_stops (file : List Byte) (u : Uninit) (header : Header) :
    (∃ st : State, mdat2root file u header = some st)
      ∧ ((header.buffertype = 0 ∨ header.buffertype = 1) →
          ∃ st : State, bufferLoop u (file.length + 1) (initState file header) = some st)
      ∧ avail (initState file header).infile ≤ file.length
      ∧ (initState file header).header = header
      ∧ header0.buffertype = 0
      ∧ (∀ st : State, (bufferBody u st).1 = false →
          avail (bufferBody u st).2.infile ≤ avail st.infile
            ∧ (bufferBody u st).2.header.buffertype = 0x0001)
      ∧ (∀ st : State, (st.header.buffertype = 0 ∨ st.header.buffertype = 1) →
          (bufferBody u st).1 = false →
            st.infile.fail = false ∧ 4 ≤ st.infile.bytes.length
              ∧ word16 st.infile.bytes 2 = 0x0001
              ∧ avail (bufferBody u st).2.infile + 4 ≤ avail st.infile
              ∧ (bufferBody u st).2.header.buffertype = 0x0001)
      ∧ (∀ (s : IfStream) (h : Header),
          (bufferEntries (ReadBuffer s u h).2.2).toNat ≤ (65535 - 21) / 3)
      ∧ (∀ (s : IfStream) (h : Header), (h.buffertype = 0 ∨ h.buffertype = 1) →
          (s.fail = true ∨ s.bytes.length < 4) → (ReadBuffer s u h).1 = 1)
      ∧ (∀ t : Nat, (t = 0 ∨ t = 1) →
          ByteSwap16 (store16 t []) ≠ 0x0001
            ∧ ∀ c : Byte, ByteSwap16 (store16 t [c]) ≠ 0x0001) := by
  refine ⟨mdat2root_terminates file u header,
    fun hbt => bufferLoop_terminates u _ _ hbt
      (Nat.lt_succ_of_le (avail_initState file header)),
    avail_initState file header, rfl, rfl,
    fun st hc => bufferBody_continue_any u st hc,
    fun st hbt hc => bufferBody_continue u st hbt hc, fun s h => bufferEntries_le s u h,
    fun s h hbt hs => ReadBuffer_exhausted s u h hbt hs, ?_⟩
  intro t ht
  refine ⟨ByteSwap16_zero_one ht, fun c => ?_⟩
  have e : store16 t [c] = c.val := by
    rcases ht with rfl | rfl <;> simp [store16]
  rw [e]
  exact ByteSwap16_byte_ne c

theorem mdat2root_stops_witness :
    (header0.buffertype = 0 ∨ header0.buffertype = 1)
      ∧ (∃ st : State, bufferLoop ⟨0, 0, 0⟩ (([] : List Byte).length + 1)
          (initState [] header0) = some st)
      ∧ ∃ st : State, mdat2root [] ⟨0, 0, 0⟩ sampleStaleHeader = some st :=
  ⟨by decide,
    (mdat2root_stops [] ⟨0, 0, 0⟩ header0).2.1 (by decide),
    (mdat2root_stops [] ⟨0, 0, 0⟩ sampleStaleHeader).1⟩

end Mdat
